import Mathlib

/-!
Verification of the TFTP implementation (connection engine, packet codec,
option negotiation, NetASCII transform) against its natural-language
specification.  Bytes are modelled as natural numbers; C++ vectors as lists;
fallible functions return Except or Option.  All definitions are translated
from the C++ sources (src/include/util/netascii.hpp, src/src/packet/*.cpp,
src/src/util/connection.cpp, src/src/client/client.cpp).
-/

set_option maxRecDepth 4000

namespace TFTP

/-- Byte values are naturals; CR = 13, LF = 10, NUL = 0 on the wire. -/
abbrev Byte := Nat

/-! ## NetASCII codec (src/include/util/netascii.hpp) -/

namespace NetASCII

/-- NetASCII.vec_to_na: LF becomes CR LF; a CR immediately followed by LF is
emitted as-is with the LF consumed; any other CR becomes CR NUL; all other
bytes pass through unchanged. -/
def vec_to_na : List Byte → List Byte
  | [] => []
  | 10 :: rest => 13 :: 10 :: vec_to_na rest
  | 13 :: 10 :: rest => 13 :: 10 :: vec_to_na rest
  | 13 :: rest => 13 :: 0 :: vec_to_na rest
  | c :: rest => c :: vec_to_na rest

/-- NetASCII.na_to_vec: CR LF becomes LF; CR NUL becomes CR; a CR followed by
neither (including a trailing CR) is kept and only the CR is consumed; all
other bytes pass through unchanged. -/
def na_to_vec : List Byte → List Byte
  | [] => []
  | 13 :: 10 :: rest => 10 :: na_to_vec rest
  | 13 :: 0 :: rest => 13 :: na_to_vec rest
  | 13 :: rest => 13 :: na_to_vec rest
  | c :: rest => c :: na_to_vec rest

/-- Predicate (ours, not the source's): the byte sequence contains no CR
immediately followed by LF. -/
def noCRLF : List Byte → Bool
  | [] => true
  | c :: rest => (!(c == 13 && rest.head? == some 10)) && noCRLF rest

theorem vec_to_na_nil : vec_to_na [] = [] := rfl

theorem vec_to_na_lf (rest : List Byte) :
    vec_to_na (10 :: rest) = 13 :: 10 :: vec_to_na rest := rfl

theorem vec_to_na_cr (rest : List Byte) (h : rest.head? ≠ some 10) :
    vec_to_na (13 :: rest) = 13 :: 0 :: vec_to_na rest := by
  match rest with
  | [] => rfl
  | d :: r =>
      have hd : ¬ d = 10 := by simpa using h
      rw [vec_to_na.eq_def]
      split
      · simp_all
      · simp_all
      · simp_all
      · simp_all
      · simp_all

theorem vec_to_na_other (c : Byte) (rest : List Byte) (h10 : c ≠ 10)
    (h13 : c ≠ 13) : vec_to_na (c :: rest) = c :: vec_to_na rest := by
  rw [vec_to_na.eq_def]
  split
  · simp_all
  · simp_all
  · simp_all
  · simp_all
  · simp_all

theorem na_to_vec_nil : na_to_vec [] = [] := rfl

theorem na_to_vec_crlf (rest : List Byte) :
    na_to_vec (13 :: 10 :: rest) = 10 :: na_to_vec rest := rfl

theorem na_to_vec_crnul (rest : List Byte) :
    na_to_vec (13 :: 0 :: rest) = 13 :: na_to_vec rest := rfl

theorem na_to_vec_cr (rest : List Byte) (h10 : rest.head? ≠ some 10)
    (h0 : rest.head? ≠ some 0) :
    na_to_vec (13 :: rest) = 13 :: na_to_vec rest := by
  match rest with
  | [] => rfl
  | d :: r =>
      have hd10 : ¬ d = 10 := by simpa using h10
      have hd0 : ¬ d = 0 := by simpa using h0
      rw [na_to_vec.eq_def]
      split
      · simp_all
      · simp_all
      · simp_all
      · simp_all
      · simp_all

theorem na_to_vec_other (c : Byte) (rest : List Byte) (h : c ≠ 13) :
    na_to_vec (c :: rest) = c :: na_to_vec rest := by
  rw [na_to_vec.eq_def]
  split
  · simp_all
  · simp_all
  · simp_all
  · simp_all
  · simp_all

theorem noCRLF_tail {c : Byte} {rest : List Byte}
    (h : noCRLF (c :: rest) = true) : noCRLF rest = true := by
  simp only [noCRLF, Bool.and_eq_true] at h
  exact h.2

/-- Round trip of the NetASCII transform on sequences that contain no CR LF
pair; simultaneously, the same with one NUL appended to the encoding. -/
theorem na_to_vec_vec_to_na_aux (n : Nat) :
    ∀ v : List Byte, v.length ≤ n → noCRLF v = true →
      na_to_vec (vec_to_na v) = v ∧
      na_to_vec (vec_to_na v ++ [0]) = v ++ [0] := by
  have hnil : na_to_vec (vec_to_na []) = [] ∧
      na_to_vec (vec_to_na [] ++ [0]) = [] ++ [0] := by
    rw [vec_to_na_nil]
    refine ⟨na_to_vec_nil, ?_⟩
    rw [show ([] : List Byte) ++ [0] = [0] from rfl,
      na_to_vec_other 0 [] (by decide), na_to_vec_nil]
  induction n with
  | zero =>
      intro v hl _
      have : v = [] := List.length_eq_zero.mp (Nat.le_zero.mp hl)
      subst this
      exact hnil
  | succ n ih =>
      intro v hl hcr
      match v with
      | [] => exact hnil
      | c :: rest =>
        have hrest : rest.length ≤ n := by
          simp only [List.length_cons] at hl
          omega
        have hcr' : noCRLF rest = true := noCRLF_tail hcr
        have ihr := ih rest hrest hcr'
        by_cases h10 : c = 10
        · subst h10
          rw [vec_to_na_lf, na_to_vec_crlf, List.cons_append,
            List.cons_append, na_to_vec_crlf]
          exact ⟨congrArg _ ihr.1, congrArg _ ihr.2⟩
        · by_cases h13 : c = 13
          · subst h13
            have hh : rest.head? ≠ some 10 := by
              simp only [noCRLF, Bool.and_eq_true, Bool.not_eq_true',
                Bool.and_eq_false_iff] at hcr
              rcases hcr.1 with h | h
              · simp at h
              · simpa using h
            rw [vec_to_na_cr rest hh, na_to_vec_crnul, List.cons_append,
              List.cons_append, na_to_vec_crnul]
            exact ⟨congrArg _ ihr.1, congrArg _ ihr.2⟩
          · rw [vec_to_na_other c rest h10 h13]
            have hne : vec_to_na rest ++ [0] ≠ [] := by simp
            constructor
            · rw [na_to_vec_other c _ h13]
              exact congrArg _ ihr.1
            · rw [List.cons_append, na_to_vec_other c _ h13]
              exact congrArg _ ihr.2

/-- Decoding the encoding is the identity on CRLF-free byte sequences. -/
theorem na_to_vec_vec_to_na (v : List Byte) (h : noCRLF v = true) :
    na_to_vec (vec_to_na v) = v :=
  (na_to_vec_vec_to_na_aux v.length v le_rfl h).1

/-- Decoding the encoding with one NUL appended keeps the NUL. -/
theorem na_to_vec_vec_to_na_zero (v : List Byte) (h : noCRLF v = true) :
    na_to_vec (vec_to_na v ++ [0]) = v ++ [0] :=
  (na_to_vec_vec_to_na_aux v.length v le_rfl h).2

/-- vec_to_na is injective on CRLF-free inputs (left inverse exists). -/
theorem vec_to_na_inj {u v : List Byte} (hu : noCRLF u = true)
    (hv : noCRLF v = true) (h : vec_to_na u = vec_to_na v) : u = v := by
  have := congrArg na_to_vec h
  rwa [na_to_vec_vec_to_na u hu, na_to_vec_vec_to_na v hv] at this

end NetASCII

/-! ## Packet codec (src/src/packet/*.cpp)

Shared helpers: big-endian 16-bit fields (htons/ntohs plus memcpy), the
null-terminator-normalising NetASCII wrappers of BasePacket, and the
null-terminated-string scanner findcstr.  The C++ scanner works on an
offset into the whole buffer; here it consumes a suffix and returns the
remaining suffix after the terminator, which is the same traversal. -/

/-- Big-endian encoding of a 16-bit value (htons + memcpy). -/
def be16 (n : Nat) : List Byte := [n / 256 % 256, n % 256]

/-- Big-endian read of the first two bytes of a buffer (memcpy + ntohs). -/
def rd16 (bin : List Byte) : Nat := bin.getD 0 0 * 256 + bin.getD 1 0

/-- BasePacket::to_netascii: vec_to_na, then append one NUL unless the
output is non-empty and already ends in NUL. -/
def to_netascii (data : List Byte) : List Byte :=
  let na := NetASCII.vec_to_na data
  if na.getLast? = some 0 then na else na ++ [0]

/-- BasePacket::from_netascii: na_to_vec, then remove one trailing NUL if
present. -/
def from_netascii (data : List Byte) : List Byte :=
  let b := NetASCII.na_to_vec data
  if b.getLast? = some 0 then b.dropLast else b

/-- BasePacket::findcstr: scan for the next NUL terminator; return the bytes
before it and the suffix after it, or fail ("Invalid payload") when no
terminator exists in the buffer. -/
def findcstr : List Byte → Except String (List Byte × List Byte)
  | [] => .error "Invalid payload"
  | c :: rest =>
    if c = 0 then .ok ([], rest)
    else (findcstr rest).map (fun p => (c :: p.1, p.2))

theorem findcstr_shrink :
    ∀ (l s r : List Byte), findcstr l = .ok (s, r) → r.length < l.length := by
  intro l
  induction l with
  | nil => intro s r h; exact absurd h (by simp [findcstr])
  | cons c rest ih =>
      intro s r h
      simp only [findcstr] at h
      by_cases hc : c = 0
      · rw [if_pos hc] at h
        cases h
        simp
      · rw [if_neg hc] at h
        match hr : findcstr rest with
        | .error e => rw [hr] at h; exact absurd h (by simp [Except.map])
        | .ok (s', r') =>
            rw [hr] at h
            simp only [Except.map, Except.ok.injEq, Prod.mk.injEq] at h
            obtain ⟨hs, hr2⟩ := h
            have := ih s' r' hr
            have hlen : r'.length = r.length := by rw [hr2]
            simp only [List.length_cons]
            omega

/-- Option-list parsing loop shared by RequestPacket::from_binary and
OptionAckPacket::from_binary: alternately scan a name and a value, fail on
a name with nothing after its terminator ("Incomplete option key") or on a
duplicate name (add_option throws "Option already exists"). -/
def parse_opts (l : List Byte) (acc : List (List Byte × List Byte)) :
    Except String (List (List Byte × List Byte)) :=
  if hl : l = [] then .ok acc
  else
    match h1 : findcstr l with
    | .error e => .error e
    | .ok (name, r1) =>
      if r1 = [] then .error "Incomplete option key"
      else
        match h2 : findcstr r1 with
        | .error e => .error e
        | .ok (val, r2) =>
          if acc.any (fun o => o.1 == name) then .error "Option already exists"
          else parse_opts r2 (acc ++ [(name, val)])
  termination_by l.length
  decreasing_by
    have hb1 := findcstr_shrink l name r1 h1
    have hb2 := findcstr_shrink r1 val r2 h2
    omega

/-- Transfer format modes (TFTPDataFormat). -/
inductive Format
  | octet
  | netascii
deriving DecidableEq, Repr

/-- Request direction (TFTPRequestType). -/
inductive ReqType
  | read
  | write
deriving DecidableEq, Repr

/-- Bytes of the lowercase mode string used on the wire. -/
def modeBytes : Format → List Byte
  | .octet => [111, 99, 116, 101, 116]
  | .netascii => [110, 101, 116, 97, 115, 99, 105, 105]

/-- ASCII tolower as applied by std::transform in the mode parser. -/
def tolowerByte (c : Byte) : Byte :=
  if 65 ≤ c ∧ c ≤ 90 then c + 32 else c

/-- Serialisation of an option list: NetASCII name, NUL, NetASCII value,
NUL, concatenated in order (the for-loops of RequestPacket::to_binary and
OptionAckPacket::to_binary). -/
def optsBytes (opts : List (List Byte × List Byte)) : List Byte :=
  opts.flatMap (fun o =>
    NetASCII.vec_to_na o.1 ++ [0] ++ NetASCII.vec_to_na o.2 ++ [0])

/-- Overwrite bytes of dst by src starting at offset off (std::memcpy into a
zero-initialised vector). -/
def writeAt (dst : List Byte) (off : Nat) (src : List Byte) : List Byte :=
  dst.take off ++ src ++ dst.drop (off + src.length)

/-! ### RequestPacket (src/src/packet/RequestPacket.cpp) -/

structure RequestPacket where
  type : ReqType
  filename : List Byte
  mode : Format
  opts : List (List Byte × List Byte)
deriving DecidableEq, Repr

namespace RequestPacket

/-- Two-byte opcode: 1 for RRQ, 2 for WRQ. -/
def opcode (p : RequestPacket) : Nat :=
  match p.type with
  | .read => 1
  | .write => 2

/-- RequestPacket::to_binary.  An empty filename yields an empty vector;
otherwise a zeroed buffer of the computed length receives, by memcpy, the
opcode at offset 0, the NetASCII filename at 2 and the mode string at
2 + filename.length() + 1 (note: the raw string length, not the NetASCII
length), after which options are appended and the 512-byte ceiling is
enforced by throwing. -/
def to_binary (p : RequestPacket) : Except String (List Byte) :=
  if p.filename = [] then .ok []
  else
    let fb := NetASCII.vec_to_na p.filename
    let mb := NetASCII.vec_to_na (modeBytes p.mode)
    let len := 2 + fb.length + mb.length + 2
    let b0 := writeAt (List.replicate len 0) 0 (be16 p.opcode)
    let b1 := writeAt b0 2 fb
    let b2 := writeAt b1 (2 + p.filename.length + 1) mb
    let bin := b2 ++ optsBytes p.opts
    if bin.length > 512 then .error "Packet size exceeds 512B" else .ok bin

/-- RequestPacket::from_binary. -/
def from_binary (bin : List Byte) : Except String RequestPacket :=
  if bin.length < 4 then .error "Incorrect packet size"
  else if bin.length > 512 then .error "Packet too large"
  else if ¬(rd16 bin = 1 ∨ rd16 bin = 2) then .error "Incorrect opcode"
  else
    match findcstr (bin.drop 2) with
    | .error e => .error e
    | .ok (filename, r1) =>
      match findcstr r1 with
      | .error e => .error e
      | .ok (modeRaw, r2) =>
        let modeStr := modeRaw.map tolowerByte
        let ty : ReqType := if rd16 bin = 1 then .read else .write
        if modeStr = modeBytes .octet then
          (parse_opts r2 []).map (fun os => ⟨ty, filename, .octet, os⟩)
        else if modeStr = modeBytes .netascii then
          (parse_opts r2 []).map (fun os => ⟨ty, filename, .netascii, os⟩)
        else .error "Incorrect mode"

end RequestPacket

/-! ### AcknowledgementPacket (src/src/packet/AcknowledgementPacket.cpp) -/

structure AcknowledgementPacket where
  blockN : Nat
deriving DecidableEq, Repr

namespace AcknowledgementPacket

/-- AcknowledgementPacket::toBinary: 2-byte opcode 4, 2-byte block number. -/
def to_binary (p : AcknowledgementPacket) : List Byte :=
  be16 4 ++ be16 (p.blockN % 65536)

/-- AcknowledgementPacket::fromBinary: exactly four bytes, opcode 4. -/
def from_binary (bin : List Byte) : Except String AcknowledgementPacket :=
  if ¬bin.length = 4 then .error "Incorrect packet size"
  else if ¬rd16 bin = 4 then .error "Incorrect opcode"
  else .ok ⟨rd16 (bin.drop 2)⟩

end AcknowledgementPacket

/-! ### ErrorPacket (src/src/packet/ErrorPacket.cpp) -/

structure ErrorPacket where
  errcode : Nat
  msg : Option (List Byte)
deriving DecidableEq, Repr

namespace ErrorPacket

/-- ErrorPacket::to_binary: opcode 5, error code, optional NetASCII message
(with BasePacket::to_netascii terminator normalisation), one final NUL. -/
def to_binary (p : ErrorPacket) : List Byte :=
  be16 5 ++ be16 (p.errcode % 65536) ++
    (match p.msg with
     | some m => to_netascii m
     | none => []) ++ [0]

/-- ErrorPacket::from_binary: at least 4 bytes, opcode 5, error code at most
7 (codes above 7 throw "Incorrect error code"), and a message exactly when
more than 5 bytes are present (bytes 4 .. size-2 through from_netascii). -/
def from_binary (bin : List Byte) : Except String ErrorPacket :=
  if bin.length < 4 then .error "Incorrect packet size"
  else if ¬rd16 bin = 5 then .error "Incorrect opcode"
  else if 7 < rd16 (bin.drop 2) then .error "Incorrect error code"
  else if 5 < bin.length then
    .ok ⟨rd16 (bin.drop 2), some (from_netascii ((bin.drop 4).dropLast))⟩
  else .ok ⟨rd16 (bin.drop 2), none⟩

end ErrorPacket

/-! ### DataPacket (src/src/packet/DataPacket.cpp)

Only packets backed by an in-memory data vector (or by nothing) are
modelled; the file-descriptor variant of read_data performs I/O and is out
of scope, so the fd = -1 branch that returns an empty vector stands in for
it.  TFTP_MAX_DATA = 512. -/

/-- Modulus of the C++ size_t arithmetic in read_data. -/
def SIZE_T_MOD : Nat := 2 ^ 64

structure DataPacket where
  blockN : Nat
  data : List Byte
  mode : Format
deriving DecidableEq, Repr

namespace DataPacket

/-- DataPacket::read_data for the raw-data case: cut the half-open byte
range [(block_n - 1) * 512, block_n * 512) out of the data vector, the end
clamped to the vector size and the start computed in size_t arithmetic
(block 0 underflows).  Returns none when the resulting iterator range is
invalid (start past end), which in C++ is out-of-bounds undefined
behaviour. -/
def read_data (p : DataPacket) : Option (List Byte) :=
  if p.data = [] then some []
  else
    let start := (p.blockN % 65536 + (SIZE_T_MOD - 1)) * 512 % SIZE_T_MOD
    let stop0 := p.blockN % 65536 * 512
    let stop := if stop0 > p.data.length then p.data.length else stop0
    if start ≤ stop then some ((p.data.take stop).drop start) else none

/-- DataPacket::to_binary: opcode 3, block number, then the read_data slice;
none propagates the out-of-range access of read_data. -/
def to_binary (p : DataPacket) : Option (List Byte) :=
  (p.read_data).map (fun fdata => be16 3 ++ be16 (p.blockN % 65536) ++ fdata)

/-- DataPacket::from_binary (single-argument overload, mode Octet): at least
4 bytes, opcode 3, remainder is the payload. -/
def from_binary (bin : List Byte) : Except String DataPacket :=
  if bin.length < 4 then .error "Incorrect packet size"
  else if ¬rd16 bin = 3 then .error "Incorrect opcode"
  else .ok ⟨rd16 (bin.drop 2), bin.drop 4, .octet⟩

end DataPacket

/-! ### OptionAckPacket (src/src/packet/OptionAckPacket.cpp) -/

structure OptionAckPacket where
  opts : List (List Byte × List Byte)
deriving DecidableEq, Repr

namespace OptionAckPacket

/-- OptionAckPacket::to_binary: empty option list gives an empty vector;
otherwise opcode 6 followed by the serialised options, 512-byte ceiling
enforced by throwing. -/
def to_binary (p : OptionAckPacket) : Except String (List Byte) :=
  if p.opts = [] then .ok []
  else
    let bin := be16 6 ++ optsBytes p.opts
    if bin.length > 512 then .error "Packet size exceeds 512B" else .ok bin

/-- OptionAckPacket::from_binary. -/
def from_binary (bin : List Byte) : Except String OptionAckPacket :=
  if bin.length < 4 then .error "Incorrect packet size"
  else if bin.length > 512 then .error "Packet too large"
  else if ¬rd16 bin = 6 then .error "Incorrect opcode"
  else (parse_opts (bin.drop 2) []).map (fun os => ⟨os⟩)

end OptionAckPacket

/-! ### PacketFactory (src/include/packet/PacketFactory.hpp) -/

/-- A decoded packet of any variant. -/
inductive Packet
  | req (p : RequestPacket)
  | data (p : DataPacket)
  | ack (p : AcknowledgementPacket)
  | err (p : ErrorPacket)
  | oack (p : OptionAckPacket)
deriving DecidableEq, Repr

/-- PacketFactory::create: empty input gives no packet; otherwise dispatch
on the leading 2-byte opcode; unknown opcodes give no packet; the selected
from_binary may throw, which propagates (Except.error). -/
def PacketFactory.create (bin : List Byte) : Except String (Option Packet) :=
  if bin = [] then .ok none
  else
    match rd16 bin with
    | 1 => (RequestPacket.from_binary bin).map (fun q => some (Packet.req q))
    | 2 => (RequestPacket.from_binary bin).map (fun q => some (Packet.req q))
    | 3 => (DataPacket.from_binary bin).map (fun q => some (Packet.data q))
    | 4 => (AcknowledgementPacket.from_binary bin).map
        (fun q => some (Packet.ack q))
    | 5 => (ErrorPacket.from_binary bin).map (fun q => some (Packet.err q))
    | 6 => (OptionAckPacket.from_binary bin).map
        (fun q => some (Packet.oack q))
    | _ => .ok none

/-! ## Codec lemmas -/

/-- Strings that survive the wire untouched: no NUL (terminator), no LF and
no CR (NetASCII rewriting). -/
def strOK (s : List Byte) : Prop := ∀ c ∈ s, c ≠ 0 ∧ c ≠ 10 ∧ c ≠ 13

instance : DecidablePred strOK := fun s =>
  inferInstanceAs (Decidable (∀ c ∈ s, c ≠ 0 ∧ c ≠ 10 ∧ c ≠ 13))

theorem vec_to_na_clean (s : List Byte) (h : ∀ c ∈ s, c ≠ 10 ∧ c ≠ 13) :
    NetASCII.vec_to_na s = s := by
  induction s with
  | nil => rfl
  | cons c rest ih =>
      have hc := h c (by simp)
      rw [NetASCII.vec_to_na_other c rest hc.1 hc.2]
      exact congrArg _ (ih (fun d hd => h d (by simp [hd])))

theorem zero_not_mem_vec_to_na (s : List Byte) (h0 : 0 ∉ s) (h13 : 13 ∉ s) :
    0 ∉ NetASCII.vec_to_na s := by
  induction s with
  | nil => simp [NetASCII.vec_to_na_nil]
  | cons c rest ih =>
      have hc0 : c ≠ 0 := fun hx => h0 (by simp [hx])
      have hc13 : c ≠ 13 := fun hx => h13 (by simp [hx])
      have ih' := ih (fun hx => h0 (by simp [hx])) (fun hx => h13 (by simp [hx]))
      by_cases hc10 : c = 10
      · subst hc10
        rw [NetASCII.vec_to_na_lf]
        simp [ih']
      · rw [NetASCII.vec_to_na_other c rest hc10 hc13]
        simp only [List.mem_cons, not_or]
        exact ⟨fun hx => hc0 hx.symm, ih'⟩

theorem noCRLF_of_no13 (s : List Byte) (h : 13 ∉ s) :
    NetASCII.noCRLF s = true := by
  induction s with
  | nil => rfl
  | cons c rest ih =>
      have hc : c ≠ 13 := fun hx => h (by simp [hx])
      simp only [NetASCII.noCRLF, Bool.and_eq_true]
      refine ⟨by simp [hc], ih (fun hx => h (by simp [hx]))⟩

theorem findcstr_append (s r : List Byte) (h : 0 ∉ s) :
    findcstr (s ++ 0 :: r) = .ok (s, r) := by
  induction s with
  | nil => simp [findcstr]
  | cons c rest ih =>
      have hc : ¬ c = 0 := fun hx => h (by simp [hx])
      simp only [List.cons_append, findcstr, hc, if_false]
      simp [ih (fun hx => h (by simp [hx]))]
      rfl

theorem parse_opts_nil (acc : List (List Byte × List Byte)) :
    parse_opts [] acc = .ok acc := by
  rw [parse_opts]
  simp

theorem parse_opts_step (l : List Byte) (acc : List (List Byte × List Byte))
    (name r1 val r2 : List Byte) (hl : l ≠ [])
    (h1 : findcstr l = .ok (name, r1)) (hr1 : r1 ≠ [])
    (h2 : findcstr r1 = .ok (val, r2))
    (hdup : acc.any (fun o => o.1 == name) = false) :
    parse_opts l acc = parse_opts r2 (acc ++ [(name, val)]) := by
  rw [parse_opts]
  rw [dif_neg hl]
  split
  · rename_i e heq
    rw [h1] at heq
    exact absurd heq (by simp)
  · rename_i nm r1' heq
    rw [h1] at heq
    obtain ⟨hnm, hr1'⟩ : nm = name ∧ r1' = r1 := by
      have := heq
      simp only [Except.ok.injEq, Prod.mk.injEq] at this
      exact ⟨this.1.symm, this.2.symm⟩
    subst hnm
    subst hr1'
    rw [if_neg hr1]
    split
    · rename_i e heq2
      rw [h2] at heq2
      exact absurd heq2 (by simp)
    · rename_i vl r2' heq2
      rw [h2] at heq2
      obtain ⟨hvl, hr2'⟩ : vl = val ∧ r2' = r2 := by
        have := heq2
        simp only [Except.ok.injEq, Prod.mk.injEq] at this
        exact ⟨this.1.symm, this.2.symm⟩
      subst hvl
      subst hr2'
      rw [if_neg (by simp [hdup])]

/-- parse_opts inverts optsBytes: parsing a serialised clean option list
appends it to the accumulator. -/
theorem parse_opts_optsBytes (opts acc : List (List Byte × List Byte))
    (hok : ∀ o ∈ opts, strOK o.1 ∧ strOK o.2)
    (hdisj : ∀ o ∈ opts, acc.any (fun a => a.1 == o.1) = false)
    (hnd : (opts.map Prod.fst).Nodup) :
    parse_opts (optsBytes opts) acc = .ok (acc ++ opts) := by
  induction opts generalizing acc with
  | nil => simpa [optsBytes] using parse_opts_nil acc
  | cons o rest ih =>
      obtain ⟨n, v⟩ := o
      have hn := (hok (n, v) (by simp)).1
      have hv := (hok (n, v) (by simp)).2
      have hncl : NetASCII.vec_to_na n = n :=
        vec_to_na_clean n (fun c hc => ⟨(hn c hc).2.1, (hn c hc).2.2⟩)
      have hvcl : NetASCII.vec_to_na v = v :=
        vec_to_na_clean v (fun c hc => ⟨(hv c hc).2.1, (hv c hc).2.2⟩)
      have hn0 : 0 ∉ n := fun hx => (hn 0 hx).1 rfl
      have hv0 : 0 ∉ v := fun hx => (hv 0 hx).1 rfl
      have hbytes : optsBytes ((n, v) :: rest)
          = n ++ 0 :: (v ++ 0 :: optsBytes rest) := by
        simp [optsBytes, hncl, hvcl]
      rw [hbytes]
      rw [parse_opts_step (n ++ 0 :: (v ++ 0 :: optsBytes rest)) acc n
        (v ++ 0 :: optsBytes rest) v (optsBytes rest)
        (by simp) (findcstr_append n _ hn0) (by simp)
        (findcstr_append v _ hv0) (hdisj (n, v) (by simp))]
      have hdisj' : ∀ o ∈ rest,
          (acc ++ [(n, v)]).any (fun a => a.1 == o.1) = false := by
        intro o ho
        have hne : n ≠ o.1 := by
          have hh := hnd
          simp only [List.map_cons, List.nodup_cons] at hh
          intro hx
          exact hh.1 (hx ▸ (List.mem_map.mpr ⟨o, ho, rfl⟩))
        have hacc := hdisj o (by simp [ho])
        simp only [List.any_append, List.any_cons, List.any_nil,
          Bool.or_eq_false_iff] at hacc ⊢
        exact ⟨hacc, by simpa using hne, trivial⟩
      rw [ih (acc ++ [(n, v)]) (fun o ho => hok o (by simp [ho])) hdisj'
        (by simpa using hnd.of_cons)]
      simp

theorem rd16_be16_append (n : Nat) (rest : List Byte) (h : n < 65536) :
    rd16 (be16 n ++ rest) = n := by
  simp only [be16, rd16, List.cons_append, List.getD, List.get?, List.nil_append]
  simp [List.getD]
  omega

theorem vec_to_na_modeBytes (md : Format) :
    NetASCII.vec_to_na (modeBytes md) = modeBytes md := by
  cases md <;> rfl

theorem tolower_modeBytes (md : Format) :
    (modeBytes md).map tolowerByte = modeBytes md := by
  cases md <;> rfl

theorem zero_not_mem_modeBytes (md : Format) : 0 ∉ modeBytes md := by
  cases md <;> decide

/-- Memcpy layout of RequestPacket::to_binary for a CR/LF-free filename:
opcode, filename, NUL, mode, NUL. -/
theorem req_layout (a b : Byte) (f m : List Byte) :
    writeAt (writeAt (writeAt
        (List.replicate (2 + f.length + m.length + 2) 0) 0 [a, b]) 2 f)
      (2 + f.length + 1) m = a :: b :: (f ++ 0 :: (m ++ [0])) := by
  have h0 : writeAt (List.replicate (2 + f.length + m.length + 2) 0) 0 [a, b]
      = a :: b :: List.replicate (f.length + m.length + 2) 0 := by
    rw [show 2 + f.length + m.length + 2
        = (f.length + m.length + 2) + 1 + 1 by omega]
    simp [writeAt, List.replicate_succ]
  have h1 : writeAt (a :: b :: List.replicate (f.length + m.length + 2) 0) 2 f
      = a :: b :: (f ++ List.replicate (m.length + 2) 0) := by
    rw [show f.length + m.length + 2 = f.length + (m.length + 2) by omega,
      List.replicate_add]
    simp [writeAt, show 2 + f.length = f.length + 2 by omega, List.drop_left']
  have h2 : writeAt (a :: b :: (f ++ List.replicate (m.length + 2) 0))
        (2 + f.length + 1) m = a :: b :: (f ++ 0 :: (m ++ [0])) := by
    rw [show m.length + 2 = 1 + (m.length + 1) by omega, List.replicate_add]
    simp only [writeAt]
    rw [show 2 + f.length + 1 = (f.length + 1) + 1 + 1 by omega]
    rw [show (f.length + 1) + 1 + 1 + m.length
        = (f.length + 1 + m.length) + 1 + 1 by omega]
    simp only [List.take_succ_cons, List.drop_succ_cons]
    rw [List.take_append_eq_append_take, List.drop_append_eq_append_drop]
    rw [List.take_of_length_le (by omega : f.length ≤ f.length + 1)]
    rw [List.drop_eq_nil_of_le (by omega : f.length ≤ f.length + 1 + m.length)]
    rw [show f.length + 1 - f.length = 1 by omega]
    rw [show f.length + 1 + m.length - f.length = m.length + 1 by omega]
    have ht : List.take 1 (List.replicate 1 (0 : Byte)
        ++ List.replicate (m.length + 1) 0) = [0] := by simp
    have hd : List.drop (m.length + 1) (List.replicate 1 (0 : Byte)
        ++ List.replicate (m.length + 1) 0) = [0] := by
      rw [← List.replicate_add]
      rw [List.drop_replicate]
      rw [show 1 + (m.length + 1) - (m.length + 1) = 1 by omega]
      rfl
    rw [ht, hd]
    simp
  rw [h0, h1, h2]

/-- Normal form of RequestPacket::to_binary under a non-empty CR/LF-free
filename and the 512-byte bound. -/
theorem req_to_binary_eq (p : RequestPacket)
    (hne : p.filename ≠ [])
    (hf : ∀ c ∈ p.filename, c ≠ 10 ∧ c ≠ 13)
    (hlen : 4 + p.filename.length + (modeBytes p.mode).length
      + (optsBytes p.opts).length ≤ 512) :
    p.to_binary = .ok (be16 p.opcode
      ++ (p.filename ++ 0 :: (modeBytes p.mode ++ 0 :: optsBytes p.opts))) := by
  have hcl : NetASCII.vec_to_na p.filename = p.filename := vec_to_na_clean _ hf
  simp only [RequestPacket.to_binary, if_neg hne, hcl, vec_to_na_modeBytes, be16]
  rw [req_layout]
  split
  · rename_i hgt
    exfalso
    revert hgt
    simp only [List.length_append, List.length_cons, List.length_map,
      List.length_nil]
    omega
  · simp

/-- Dispatch core of RequestPacket::from_binary on a well-formed wire
image with literal opcode second byte a2 (1 or 2). -/
theorem req_decode_aux (a2 : Byte) (ha : a2 = 1 ∨ a2 = 2)
    (f : List Byte) (md : Format) (opts : List (List Byte × List Byte))
    (hf0 : (0 : Byte) ∉ f)
    (hpo : parse_opts (optsBytes opts) [] = .ok opts)
    (hlen : 4 + f.length + (modeBytes md).length
      + (optsBytes opts).length ≤ 512) :
    RequestPacket.from_binary ([0, a2]
      ++ (f ++ 0 :: (modeBytes md ++ 0 :: optsBytes opts)))
      = .ok ⟨if a2 = 1 then .read else .write, f, md, opts⟩ := by
  have hblen : (([0, a2] : List Byte)
      ++ (f ++ 0 :: (modeBytes md ++ 0 :: optsBytes opts))).length
      = 4 + f.length + (modeBytes md).length + (optsBytes opts).length := by
    simp
    omega
  simp only [RequestPacket.from_binary, hblen]
  rw [if_neg (by omega)]
  rw [if_neg (by omega)]
  rw [if_neg (by
    simp only [rd16, List.getD_cons_zero, List.getD_cons_succ,
      List.cons_append, Nat.zero_mul, Nat.zero_add]
    intro hx
    simp at hx
    exact absurd ha (by tauto))]
  have hdrop : (([0, a2] : List Byte)
      ++ (f ++ 0 :: (modeBytes md ++ 0 :: optsBytes opts))).drop 2
      = f ++ 0 :: (modeBytes md ++ 0 :: optsBytes opts) := by simp
  rw [hdrop]
  rw [findcstr_append f _ hf0]
  simp only [findcstr_append (modeBytes md) _ (zero_not_mem_modeBytes md),
    tolower_modeBytes, hpo]
  cases md
  · simp [rd16, Except.map]
  · simp [rd16, Except.map, modeBytes]

/-- Decoding inverts the Request encoding for a clean non-empty filename,
clean options with pairwise distinct names, and a packet within 512 bytes. -/
theorem req_from_binary_roundtrip (p : RequestPacket)
    (hf : strOK p.filename)
    (hopts : ∀ o ∈ p.opts, strOK o.1 ∧ strOK o.2)
    (hnd : (p.opts.map Prod.fst).Nodup)
    (hlen : 4 + p.filename.length + (modeBytes p.mode).length
      + (optsBytes p.opts).length ≤ 512) :
    RequestPacket.from_binary (be16 p.opcode
      ++ (p.filename ++ 0 :: (modeBytes p.mode ++ 0 :: optsBytes p.opts)))
      = .ok p := by
  obtain ⟨ty, f, md, opts⟩ := p
  have hf0 : (0 : Byte) ∉ f := fun hx => (hf 0 hx).1 rfl
  have hpo : parse_opts (optsBytes opts) [] = .ok opts := by
    simpa using parse_opts_optsBytes opts [] hopts (by simp) hnd
  cases ty
  · have := req_decode_aux 1 (Or.inl rfl) f md opts hf0 hpo (by simpa using hlen)
    simpa [RequestPacket.opcode, be16] using this
  · have := req_decode_aux 2 (Or.inr rfl) f md opts hf0 hpo (by simpa using hlen)
    simpa [RequestPacket.opcode, be16] using this

/-- Normal form of OptionAckPacket::to_binary when options exist and fit. -/
theorem oack_to_binary_eq (p : OptionAckPacket) (hne : p.opts ≠ [])
    (hlen : 2 + (optsBytes p.opts).length ≤ 512) :
    p.to_binary = .ok (be16 6 ++ optsBytes p.opts) := by
  simp only [OptionAckPacket.to_binary, if_neg hne]
  rw [if_neg (by
    simp only [List.length_append, be16, List.length_cons, List.length_nil]
    omega)]

theorem optsBytes_two_le (opts : List (List Byte × List Byte))
    (hne : opts ≠ []) : 2 ≤ (optsBytes opts).length := by
  match opts with
  | [] => exact absurd rfl hne
  | o :: rest =>
      simp only [optsBytes, List.flatMap_cons, List.length_append,
        List.length_cons]
      simp
      omega

/-- Decoding inverts the OptionAck encoding for clean options with pairwise
distinct names within 512 bytes. -/
theorem oack_from_binary_roundtrip (p : OptionAckPacket)
    (hne : p.opts ≠ [])
    (hopts : ∀ o ∈ p.opts, strOK o.1 ∧ strOK o.2)
    (hnd : (p.opts.map Prod.fst).Nodup)
    (hlen : 2 + (optsBytes p.opts).length ≤ 512) :
    OptionAckPacket.from_binary (be16 6 ++ optsBytes p.opts) = .ok p := by
  have hpo : parse_opts (optsBytes p.opts) [] = .ok p.opts := by
    simpa using parse_opts_optsBytes p.opts [] hopts (by simp) hnd
  have h2 := optsBytes_two_le p.opts hne
  have hblen : ((be16 6 : List Byte) ++ optsBytes p.opts).length
      = 2 + (optsBytes p.opts).length := by
    simp [be16]
    omega
  simp only [OptionAckPacket.from_binary, hblen]
  rw [if_neg (by omega)]
  rw [if_neg (by omega)]
  rw [if_neg (by simp [rd16, be16])]
  have hdrop : ((be16 6 : List Byte) ++ optsBytes p.opts).drop 2
      = optsBytes p.opts := by simp [be16]
  rw [hdrop, hpo]
  rfl

/-- Normal form of ErrorPacket::to_binary for a NUL- and CR-free message:
the message NetASCII image followed by its terminator and the final NUL. -/
theorem error_to_binary_some_eq (ec : Nat) (m : List Byte)
    (h0 : 0 ∉ m) (h13 : 13 ∉ m) :
    ErrorPacket.to_binary ⟨ec, some m⟩
      = be16 5 ++ be16 (ec % 65536)
        ++ (NetASCII.vec_to_na m ++ [0]) ++ [0] := by
  have hgl : (NetASCII.vec_to_na m).getLast? ≠ some 0 := by
    intro hx
    exact zero_not_mem_vec_to_na m h0 h13 (List.mem_of_mem_getLast? hx)
  simp only [ErrorPacket.to_binary, to_netascii, if_neg hgl]

/-- Decoding inverts the Error encoding when the code is at most 7 and the
optional message contains neither NUL nor CR. -/
theorem error_from_binary_roundtrip (p : ErrorPacket)
    (hc : p.errcode ≤ 7)
    (hm : ∀ m, p.msg = some m → 0 ∉ m ∧ 13 ∉ m) :
    ErrorPacket.from_binary p.to_binary = .ok p := by
  obtain ⟨ec, msg⟩ := p
  replace hc : ec ≤ 7 := hc
  have hec : ec % 65536 = ec := Nat.mod_eq_of_lt (by omega)
  have hbe : (be16 (ec % 65536) : List Byte) = [0, ec] := by
    have e1 : ec / 256 = 0 := Nat.div_eq_of_lt (by omega)
    have e2 : ec % 256 = ec := Nat.mod_eq_of_lt (by omega)
    simp [be16, hec, e1, e2]
  cases msg with
  | none =>
      have hb : ErrorPacket.to_binary ⟨ec, none⟩ = [0, 5, 0, ec, 0] := by
        simp only [ErrorPacket.to_binary, hbe]
        rfl
      rw [hb]
      simp only [ErrorPacket.from_binary]
      rw [if_neg (by simp)]
      rw [if_neg (by simp [rd16])]
      rw [if_neg (by simp [rd16]; omega)]
      rw [if_neg (by simp)]
      simp [rd16]
  | some m =>
      obtain ⟨h0, h13⟩ := hm m rfl
      rw [error_to_binary_some_eq ec m h0 h13, hbe]
      rw [show (be16 5 : List Byte) = [0, 5] from rfl]
      have hsh : (([0, 5] : List Byte) ++ [0, ec]
          ++ (NetASCII.vec_to_na m ++ [0]) ++ [0])
          = 0 :: 5 :: 0 :: ec :: ((NetASCII.vec_to_na m ++ [0]) ++ [0]) := by
        simp
      rw [hsh]
      simp only [ErrorPacket.from_binary]
      rw [if_neg (by simp)]
      rw [if_neg (by simp [rd16])]
      rw [if_neg (by simp [rd16]; omega)]
      rw [if_pos (by simp)]
      have hdrop : (0 :: 5 :: 0 :: ec
          :: ((NetASCII.vec_to_na m ++ [0]) ++ [0])).drop 4
          = (NetASCII.vec_to_na m ++ [0]) ++ [0] := rfl
      have hdl : ((NetASCII.vec_to_na m ++ [0]) ++ [0]).dropLast
          = NetASCII.vec_to_na m ++ [0] := List.dropLast_concat
      have hfn : from_netascii (NetASCII.vec_to_na m ++ [0]) = m := by
        simp only [from_netascii]
        rw [NetASCII.na_to_vec_vec_to_na_zero m (noCRLF_of_no13 m h13)]
        rw [if_pos (List.getLast?_concat m)]
        exact List.dropLast_concat
      rw [hdrop, hdl, hfn]
      simp [rd16]

/-- read_data returns the whole payload for block 1 when it fits one
512-byte block. -/
theorem data_read_data_block_one (p : DataPacket) (hb : p.blockN = 1)
    (hd : p.data.length ≤ 512) : p.read_data = some p.data := by
  by_cases hemp : p.data = []
  · simp [DataPacket.read_data, hemp]
  · simp only [DataPacket.read_data, if_neg hemp, hb]
    have e1 : (1 % 65536 + (SIZE_T_MOD - 1)) * 512 % SIZE_T_MOD = 0 := by
      norm_num [SIZE_T_MOD]
    have e2 : 1 % 65536 * 512 = 512 := by norm_num
    rw [e1, e2]
    by_cases hlt : 512 > p.data.length
    · rw [if_pos hlt, if_pos (Nat.zero_le _)]
      simp [List.take_length]
    · rw [if_neg hlt, if_pos (Nat.zero_le _)]
      simp [List.take_of_length_le (by omega : p.data.length ≤ 512)]

/-- Decoding inverts the Data encoding for an octet-mode packet with block
number 1 and a payload of at most 512 bytes. -/
theorem data_from_binary_roundtrip (p : DataPacket) (hb : p.blockN = 1)
    (hd : p.data.length ≤ 512) (hmd : p.mode = .octet) :
    p.to_binary = some (be16 3 ++ be16 1 ++ p.data) ∧
      DataPacket.from_binary (be16 3 ++ be16 1 ++ p.data) = .ok p := by
  constructor
  · rw [DataPacket.to_binary, data_read_data_block_one p hb hd]
    simp [hb]
  · obtain ⟨bn, d, md⟩ := p
    simp only at hb hd hmd
    subst hb
    subst hmd
    rw [show (be16 3 : List Byte) ++ be16 1 ++ d = 0 :: 3 :: 0 :: 1 :: d
      from by simp [be16]]
    simp only [DataPacket.from_binary]
    rw [if_neg (by simp)]
    rw [if_neg (by simp [rd16])]
    simp [rd16]

/-- Decoding inverts the Ack encoding for an in-range block number. -/
theorem ack_from_binary_roundtrip
    (p : AcknowledgementPacket) (hb : p.blockN < 65536) :
    AcknowledgementPacket.from_binary p.to_binary = .ok p := by
  obtain ⟨bn⟩ := p
  simp only at hb
  have hbe : (AcknowledgementPacket.to_binary ⟨bn⟩ : List Byte)
      = [0, 4, bn / 256 % 256, bn % 256] := by
    simp [AcknowledgementPacket.to_binary, be16, Nat.mod_eq_of_lt hb]
  rw [hbe]
  simp only [AcknowledgementPacket.from_binary]
  rw [if_neg (by simp)]
  rw [if_neg (by simp [rd16])]
  simp only [rd16, List.drop, List.getD_cons_zero, List.getD_cons_succ]
  congr 1
  congr 1
  omega

/-! ## Transfer engine, base class (src/src/util/connection.cpp)

The per-transfer state machine is modelled as a pure step function: the
socket becomes an explicit list of sent datagrams, recvfrom becomes an
optional incoming datagram (none = EWOULDBLOCK), the monotonic clock
becomes a natural-number second count passed as now, and the local file
becomes the list of bytes written so far.  File-system failures (open,
write, ftruncate) are outside the model and taken to succeed.  A C++
exception that would escape the engine (an uncaught throw from the packet
codec) is an Except.error. -/

/-- Connection states (TFTPConnectionState). -/
inductive ConnState
  | idle
  | requesting
  | uploading
  | downloading
  | awaiting
  | errored
  | completed
deriving DecidableEq, Repr

/-- A terminal state: Completed or Errored. -/
def ConnState.terminal : ConnState → Prop
  | .completed => True
  | .errored => True
  | _ => False

instance : DecidablePred ConnState.terminal := fun s => by
  cases s <;> simp [ConnState.terminal] <;> infer_instance

/-- A remote socket address (sockaddr_in: family fixed, address, port). -/
structure Addr where
  ip : Nat
  port : Nat
deriving DecidableEq, Repr

/-- An outgoing or incoming datagram: destination or origin plus bytes. -/
abbrev Dgram := Addr × List Byte

/-- Bytes of an ASCII message string. -/
def bytesOfString (s : String) : List Byte := s.data.map Char.toNat

/-- Runtime state of TFTPConnectionBase (the fields the handlers touch). -/
structure Conn where
  state : ConnState
  pstate : ConnState
  blockN : Int
  sendTries : Int
  isLast : Bool
  crEnd : Bool
  fileCreated : Bool
  execUnblock : Bool
  oackExpect : Bool
  oackInit : Bool
  exitOnAwait : Bool
  addrStatic : Bool
  typ : ReqType
  format : Format
  remAddr : Addr
  rxBuffer : List Byte
  rxLen : Int
  lastSentAt : Nat
  file : List Byte
  opts : List (List Byte × List Byte)
deriving DecidableEq, Repr

namespace Conn

/-- TFTPConnectionBase::is_running. -/
def is_running (c : Conn) : Bool :=
  c.state ≠ ConnState.completed && c.state ≠ ConnState.errored

/-- TFTPConnectionBase::is_upload (type == Write). -/
def is_upload (c : Conn) : Bool := c.typ == ReqType.write

/-- TFTPConnectionBase::is_timedout: seconds since the last packet exceed
TFTP_PACKET_TIMEO = 3. -/
def is_timedout (c : Conn) (now : Nat) : Bool := 3 < now - c.lastSentAt

/-- TFTPConnectionBase::set_state: push the old state to pstate; raise the
exec_unblock flag when entering Awaiting under exit_on_await. -/
def set_state (c : Conn) (s : ConnState) : Conn :=
  let c' := { c with pstate := c.state, state := s }
  if c.exitOnAwait && s == ConnState.awaiting then
    { c' with execUnblock := true }
  else c'

/-- TFTPConnectionBase::send_error: build and send an Error packet to the
peer, stamp the send time, transition to Errored. -/
def send_error (c : Conn) (now : Nat) (code : Nat) (msg : String) :
    Conn × List Dgram :=
  (({ c with lastSentAt := now }).set_state .errored,
   [(c.remAddr, (ErrorPacket.mk code (some (bytesOfString msg))).to_binary)])

/-- TFTPConnectionBase::recv_packet.  none = nothing to receive (rx_len is
the -1 of recvfrom); a datagram is stored in the receive buffer, parsed by
PacketFactory (an uncaught decode throw propagates), then checked: latch
the origin as the peer when overwriting is allowed, otherwise reply with
Error 5 to a foreign origin (stamping last_sent_at) and report no packet. -/
def recv_packet (c : Conn) (now : Nat) (addrOverwrite : Bool)
    (dgram : Option Dgram) :
    Except String (Conn × List Dgram × Option Packet) :=
  match dgram with
  | none => .ok ({ c with rxLen := -1 }, [], none)
  | some (origin, bytes) =>
    let c1 := { c with rxBuffer := bytes, rxLen := (bytes.length : Int) }
    match PacketFactory.create bytes with
    | .error e => .error e
    | .ok none =>
        let r := c1.send_error now 4 "Received an invalid packet"
        .ok (r.1, r.2, none)
    | .ok (some pkt) =>
        if !c1.addrStatic && addrOverwrite then
          .ok ({ c1 with remAddr := origin }, [], some pkt)
        else if origin ≠ c1.remAddr then
          .ok ({ c1 with lastSentAt := now, rxBuffer := [], rxLen := 0 },
            [(origin, (ErrorPacket.mk 5
              (some (bytesOfString "Unexpected packet origin"))).to_binary)],
            none)
        else .ok (c1, [], some pkt)

/-- TFTPConnectionBase::handle_await_download. -/
def handle_await_download (c : Conn) (now : Nat) (dgram : Option Dgram) :
    Except String (Conn × List Dgram) :=
  if c.is_timedout now then
    let c1 := { c with sendTries := c.sendTries + 1 }
    if c1.sendTries > (4 : Int) then
      .ok (c1.send_error now 0 "Retransmission timeout")
    else .ok (c1.set_state c1.pstate, [])
  else
    match c.recv_packet now (c.blockN == 0) dgram with
    | .error e => .error e
    | .ok (c1, out, none) => .ok (c1, out)
    | .ok (c1, out, some pkt) =>
      match pkt with
      | .err _ => .ok (c1.set_state .errored, out)
      | .data p =>
          if ((p.blockN % 65536 : Nat) : Int) < c1.blockN + 1 then
            .ok (c1, out)
          else if ((p.blockN % 65536 : Nat) : Int) > c1.blockN + 1 then
            let r := c1.send_error now 4 "Received ACK for future block"
            .ok (r.1, out ++ r.2)
          else
            let old := c1.blockN
            let c2 := { c1 with blockN := old + 1 }
            if old == 65534 then
              let r := c2.send_error now 0 "Block overflow (file too big)"
              .ok (r.1, out ++ r.2)
            else .ok (({ c2 with sendTries := 0 }).set_state .downloading, out)
      | .oack _ =>
          if !c1.oackExpect then .ok (c1, out)
          else
            let c2 := { c1 with oackExpect := false }
            .ok (({ c2 with sendTries := 0 }).set_state .downloading, out)
      | _ =>
          let r := c1.send_error now 4 "Received a non-DATA/OACK packet"
          .ok (r.1, out ++ r.2)

/-- TFTPConnectionBase::handle_await_upload. -/
def handle_await_upload (c : Conn) (now : Nat) (dgram : Option Dgram) :
    Except String (Conn × List Dgram) :=
  if c.is_timedout now then
    let c1 := { c with sendTries := c.sendTries + 1 }
    if c1.sendTries > (4 : Int) then
      .ok (c1.send_error now 0 "Retransmission timeout")
    else .ok (c1.set_state c1.pstate, [])
  else
    match c.recv_packet now (c.blockN == 0) dgram with
    | .error e => .error e
    | .ok (c1, out, none) => .ok (c1, out)
    | .ok (c1, out, some pkt) =>
      let step2 : Conn → Except String (Conn × List Dgram) := fun c2 =>
        let c3 := { c2 with sendTries := 0 }
        if c3.isLast then .ok (c3.set_state .completed, out)
        else
          let old := c3.blockN
          let c4 := { c3 with blockN := old + 1 }
          if old == 65535 then
            let r := c4.send_error now 0 "Block overflow (file too big)"
            .ok (r.1, out ++ r.2)
          else .ok (c4.set_state .uploading, out)
      match pkt with
      | .err _ => .ok (c1.set_state .errored, out)
      | .ack a =>
          if ((a.blockN % 65536 : Nat) : Int) < c1.blockN then .ok (c1, out)
          else if ((a.blockN % 65536 : Nat) : Int) > c1.blockN then
            let r := c1.send_error now 4 "Received ACK for future block"
            .ok (r.1, out ++ r.2)
          else step2 c1
      | .oack _ =>
          if !c1.oackExpect then .ok (c1, out)
          else step2 { c1 with oackExpect := false }
      | _ =>
          let r := c1.send_error now 4 "Received a non-(O)ACK packet"
          .ok (r.1, out ++ r.2)

/-- TFTPConnectionBase::handle_download: OACK bootstrap, block-0 or empty
re-ACK, or parse the buffered Data packet, apply the NetASCII CR-splice and
conversion, record cr_end from the converted data, append to the file, send
the ACK and pick Completed or Awaiting from the raw payload length. -/
def handle_download (c : Conn) (now : Nat) :
    Except String (Conn × List Dgram) :=
  if c.blockN == 0 && c.oackInit then
    match OptionAckPacket.to_binary ⟨c.opts⟩ with
    | .error e => .error e
    | .ok payload =>
        .ok (({ c with lastSentAt := now }).set_state .awaiting,
          [(c.remAddr, payload)])
  else
    let ack := AcknowledgementPacket.to_binary ⟨c.blockN.toNat % 65536⟩
    if c.blockN == 0 || c.rxLen ≤ 0 then
      .ok (({ c with lastSentAt := now }).set_state .awaiting,
        [(c.remAddr, ack)])
    else
      match DataPacket.from_binary (c.rxBuffer.take c.rxLen.toNat) with
      | .error _ =>
          .ok (c.send_error now 4 "Failed to parse DATA packet")
      | .ok packet =>
          let data0 := packet.data
          let fd : List Byte × List Byte :=
            if c.format == Format.netascii && data0 ≠ [] then
              if c.crEnd && data0.head? == some 10 then
                (c.file.dropLast, NetASCII.na_to_vec data0)
              else if c.crEnd && data0.head? == some 0 then
                (c.file, NetASCII.na_to_vec data0.tail)
              else (c.file, NetASCII.na_to_vec data0)
            else (c.file, data0)
          let crEnd1 := fd.2 ≠ [] && fd.2.getLast? == some 13
          let c1 := { c with crEnd := crEnd1, file := fd.1 ++ fd.2, rxBuffer := [], rxLen := 0, lastSentAt := now }
          if packet.data.length < 512 then
            .ok (c1.set_state .completed, [(c.remAddr, ack)])
          else
            .ok (c1.set_state .awaiting, [(c.remAddr, ack)])

/-- TFTPConnectionBase::handle_upload; the virtual next_data() payload of
the derived class is passed in already serialised. -/
def handle_upload (c : Conn) (now : Nat) (nextData : List Byte) :
    Except String (Conn × List Dgram) :=
  if c.blockN == 0 && c.oackInit then
    match OptionAckPacket.to_binary ⟨c.opts⟩ with
    | .error e => .error e
    | .ok payload =>
        .ok (({ c with lastSentAt := now }).set_state .awaiting,
          [(c.remAddr, payload)])
  else
    let c1 := if c.blockN == 0 then { c with blockN := 1 } else c
    let c2 := { c1 with lastSentAt := now, isLast := decide (nextData.length < 512 + 4) }
    .ok (c2.set_state .awaiting, [(c.remAddr, nextData)])

/-- One iteration of the TFTPConnectionBase::exec while loop.  A terminal
state fails the loop guard, so nothing runs; the exec_unblock flag breaks
out; a raised shutdown flag sends Error 0; otherwise the state dispatches
to a handler.  The virtual request handlers of the derived classes and the
virtual next_data() are parameters. -/
def exec_step
    (reqUpload reqDownload : Conn → Nat → Except String (Conn × List Dgram))
    (nextData : Conn → List Byte) (c : Conn) (now : Nat)
    (dgram : Option Dgram) (shutd : Bool) :
    Except String (Conn × List Dgram) :=
  if !c.is_running then .ok (c, [])
  else if c.execUnblock then .ok ({ c with execUnblock := false }, [])
  else if shutd then .ok (c.send_error now 0 "Terminated by user")
  else
    match c.state with
    | .requesting =>
        if c.is_upload then reqUpload c now else reqDownload c now
    | .awaiting =>
        if c.is_upload then c.handle_await_upload now dgram
        else c.handle_await_download now dgram
    | .uploading => c.handle_upload now (nextData c)
    | .downloading => c.handle_download now
    | _ => .ok (c.send_error now 0 "Bad internal state")

/-- Iterated exec_step over a list of per-iteration inputs (clock reading,
optional datagram, shutdown flag), keeping only the connection state. -/
def exec_run
    (reqUpload reqDownload : Conn → Nat → Except String (Conn × List Dgram))
    (nextData : Conn → List Byte) (c : Conn) :
    List (Nat × Option Dgram × Bool) → Except String Conn
  | [] => .ok c
  | i :: rest =>
    match exec_step reqUpload reqDownload nextData c i.1 i.2.1 i.2.2 with
    | .error e => .error e
    | .ok (c', _) => exec_run reqUpload reqDownload nextData c' rest

end Conn

/-- TFTPConnectionBase::proc_opts.  The loop lowercases each proposed
option name and logs it; the branch that would accept blksize is commented
out in the source, so no option is ever pushed to the accepted list. -/
def Conn.proc_opts (newOpts : List (List Byte × List Byte)) :
    List (List Byte × List Byte) :=
  newOpts.foldl (fun acc _opt => acc) []

/-! ## Client engine (src/src/client/client.cpp)

TFTPClient is a standalone class (it does not inherit the base engine):
it has no pstate (the timeout restart recomputes a state from block_n and
the direction), its recv_packet silently drops foreign-origin datagrams
without any reply, its send_error does not stamp the send time, and its
handle_await_download performs no block-number check at all. -/

structure Client where
  state : ConnState
  blockN : Int
  sendTries : Int
  isLast : Bool
  lastDataCr : Bool
  fileCreated : Bool
  typ : ReqType
  format : Format
  hostAddr : Addr
  rxBuffer : List Byte
  rxLen : Int
  lastSentAt : Nat
  file : List Byte
deriving DecidableEq, Repr

namespace Client

/-- TFTPClient::is_upload. -/
def is_upload (c : Client) : Bool := c.typ == ReqType.write

/-- TFTPClient::is_timedout (same 3-second rule as the base). -/
def is_timedout (c : Client) (now : Nat) : Bool := 3 < now - c.lastSentAt

/-- TFTPClient::send_error: send one Error packet to the host and enter
Errored; unlike the base class, the send time is not updated. -/
def send_error (c : Client) (code : Nat) (msg : String) :
    Client × List Dgram :=
  ({ c with state := .errored },
   [(c.hostAddr, (ErrorPacket.mk code (some (bytesOfString msg))).to_binary)])

/-- TFTPClient::recv_packet: parse the datagram; on a foreign origin (and
no overwrite pending) clear the buffer and ignore it silently — no Error 5
is sent; on overwrite latch the origin as the host address. -/
def recv_packet (c : Client) (addrOverwrite : Bool) (dgram : Option Dgram) :
    Except String (Client × List Dgram × Option Packet) :=
  match dgram with
  | none => .ok ({ c with rxLen := -1 }, [], none)
  | some (origin, bytes) =>
    let c1 := { c with rxBuffer := bytes, rxLen := (bytes.length : Int) }
    match PacketFactory.create bytes with
    | .error e => .error e
    | .ok none =>
        let r := c1.send_error 4 "Received an invalid packet"
        .ok (r.1, r.2, none)
    | .ok (some pkt) =>
        if !addrOverwrite && origin ≠ c1.hostAddr then
          .ok ({ c1 with rxBuffer := [], rxLen := 0 }, [], none)
        else if addrOverwrite then
          .ok ({ c1 with hostAddr := origin }, [], some pkt)
        else .ok (c1, [], some pkt)

/-- State the client timeout branch restarts into. -/
def retryState (c : Client) : ConnState :=
  if c.blockN == 0 then .requesting
  else if c.is_upload then .uploading
  else .downloading

/-- TFTPClient::handle_await_download: on timeout error out at the fourth
attempt (send_tries + 1 >= 4) or retransmit; on a received packet require
opcode DATA and, with no block-number comparison whatsoever, bump block_n
(overflow at 0xFFFF gives Error 4) and transition to Downloading. -/
def handle_await_download (c : Client) (now : Nat) (dgram : Option Dgram) :
    Except String (Client × List Dgram) :=
  if c.is_timedout now then
    if c.sendTries + 1 ≥ (4 : Int) then
      .ok (c.send_error 0 "Retransmission timeout")
    else
      let c1 := { c with sendTries := c.sendTries + 1 }
      .ok ({ c1 with state := c1.retryState }, [])
  else
    match c.recv_packet (c.blockN == 0) dgram with
    | .error e => .error e
    | .ok (c1, out, none) => .ok (c1, out)
    | .ok (c1, out, some pkt) =>
      match pkt with
      | .data _ =>
          if c1.blockN == (65535 : Int) then
            let r := c1.send_error 4 "Block overflow (file too big)"
            .ok (r.1, out ++ r.2)
          else
            .ok ({ c1 with blockN := c1.blockN + 1, sendTries := 0, state := .downloading }, out)
      | _ =>
          let r := c1.send_error 4 "Received a non-DATA packet"
          .ok (r.1, out ++ r.2)

/-- TFTPClient::handle_await_upload: identical timeout policy; a received
packet must be an ACK (anything else, Error packets included, draws
Error 4); stray past ACKs are ignored, future ACKs are Error 4, the
expected ACK completes the transfer or advances the block. -/
def handle_await_upload (c : Client) (now : Nat) (dgram : Option Dgram) :
    Except String (Client × List Dgram) :=
  if c.is_timedout now then
    if c.sendTries + 1 ≥ (4 : Int) then
      .ok (c.send_error 0 "Retransmission timeout")
    else
      let c1 := { c with sendTries := c.sendTries + 1 }
      .ok ({ c1 with state := c1.retryState }, [])
  else
    match c.recv_packet (c.blockN == 0) dgram with
    | .error e => .error e
    | .ok (c1, out, none) => .ok (c1, out)
    | .ok (c1, out, some pkt) =>
      match pkt with
      | .ack a =>
          if ((a.blockN % 65536 : Nat) : Int) < c1.blockN then .ok (c1, out)
          else if ((a.blockN % 65536 : Nat) : Int) > c1.blockN then
            let r := c1.send_error 4 "Received an ACK with a future block number"
            .ok (r.1, out ++ r.2)
          else if c1.isLast then
            .ok ({ c1 with state := .completed }, out)
          else if c1.blockN == (65535 : Int) then
            let r := c1.send_error 0 "Block overflow (file too big)"
            .ok (r.1, out ++ r.2)
          else
            .ok ({ c1 with blockN := c1.blockN + 1, sendTries := 0, state := .uploading }, out)
      | _ =>
          let r := c1.send_error 4 "Received a non-ACK packet"
          .ok (r.1, out ++ r.2)

/-- TFTPClient::handle_download: block 0 or an empty buffer re-sends the
ACK; otherwise parse the buffered Data packet (a decode throw escapes the
client uncaught), apply the CR-splice and NetASCII conversion, write,
record last_data_cr from the converted data, ACK, and finish when the raw
payload is shorter than 512. -/
def handle_download (c : Client) (now : Nat) :
    Except String (Client × List Dgram) :=
  let ack := AcknowledgementPacket.to_binary ⟨c.blockN.toNat % 65536⟩
  if c.blockN == 0 || c.rxLen ≤ 0 then
    .ok ({ c with lastSentAt := now, state := .awaiting }, [(c.hostAddr, ack)])
  else
    match DataPacket.from_binary (c.rxBuffer.take c.rxLen.toNat) with
    | .error e => .error e
    | .ok packet =>
        let data0 := packet.data
        let fd : List Byte × List Byte :=
          if c.format == Format.netascii && data0 ≠ [] then
            if c.lastDataCr && data0.head? == some 10 then
              (c.file.dropLast, NetASCII.na_to_vec data0)
            else if c.lastDataCr && data0.head? == some 0 then
              (c.file, NetASCII.na_to_vec data0.tail)
            else (c.file, NetASCII.na_to_vec data0)
          else (c.file, data0)
        let crEnd1 := fd.2 ≠ [] && fd.2.getLast? == some 13
        let c1 := { c with lastDataCr := crEnd1, file := fd.1 ++ fd.2, rxBuffer := [], rxLen := 0, lastSentAt := now }
        if packet.data.length < 512 then
          .ok ({ c1 with state := .completed }, [(c.hostAddr, ack)])
        else
          .ok ({ c1 with state := .awaiting }, [(c.hostAddr, ack)])

end Client

/-! ## Claims -/

/-- C1 counterexample: the claim asserts the round trip in particular for a
Request packet with empty filename, but to_binary serialises such a packet
to the empty vector, which from_binary rejects ("Incorrect packet size"),
so decode(encode(P)) is not P. -/
theorem C1_counterexample :
    RequestPacket.to_binary ⟨.read, [], .octet, []⟩ = .ok [] ∧
    RequestPacket.from_binary [] = .error "Incorrect packet size" :=
  ⟨rfl, rfl⟩

/-- C1 (amended): the packet codec round-trips on its wire-clean domain:
Requests with a non-empty filename free of NUL/LF/CR, clean options with
pairwise distinct names, within 512 bytes; Data packets with block 1 and a
payload of at most 512 bytes in octet mode; Acks with an in-range block
number; Error packets with code at most 7 and a message free of NUL and
CR; OptionAcks with a non-empty clean option list within 512 bytes. -/
theorem C1_roundtrip_amended :
    (∀ p : RequestPacket, p.filename ≠ [] → strOK p.filename →
      (∀ o ∈ p.opts, strOK o.1 ∧ strOK o.2) →
      (p.opts.map Prod.fst).Nodup →
      4 + p.filename.length + (modeBytes p.mode).length
        + (optsBytes p.opts).length ≤ 512 →
      ∃ b, p.to_binary = .ok b ∧ RequestPacket.from_binary b = .ok p) ∧
    (∀ p : DataPacket, p.blockN = 1 → p.data.length ≤ 512 →
      p.mode = .octet →
      ∃ b, p.to_binary = some b ∧ DataPacket.from_binary b = .ok p) ∧
    (∀ a : AcknowledgementPacket, a.blockN < 65536 →
      AcknowledgementPacket.from_binary a.to_binary = .ok a) ∧
    (∀ e : ErrorPacket, e.errcode ≤ 7 →
      (∀ m, e.msg = some m → 0 ∉ m ∧ 13 ∉ m) →
      ErrorPacket.from_binary e.to_binary = .ok e) ∧
    (∀ q : OptionAckPacket, q.opts ≠ [] →
      (∀ o ∈ q.opts, strOK o.1 ∧ strOK o.2) →
      (q.opts.map Prod.fst).Nodup →
      2 + (optsBytes q.opts).length ≤ 512 →
      ∃ b, q.to_binary = .ok b ∧ OptionAckPacket.from_binary b = .ok q) := by
  refine ⟨?_, ?_, ?_, ?_, ?_⟩
  · intro p hne hf hopts hnd hlen
    refine ⟨_, req_to_binary_eq p hne
      (fun c hc => ⟨(hf c hc).2.1, (hf c hc).2.2⟩) hlen, ?_⟩
    exact req_from_binary_roundtrip p hf hopts hnd hlen
  · intro p hb hd hmd
    obtain ⟨h1, h2⟩ := data_from_binary_roundtrip p hb hd hmd
    exact ⟨_, h1, h2⟩
  · intro a hb
    exact ack_from_binary_roundtrip a hb
  · intro e hc hm
    exact error_from_binary_roundtrip e hc hm
  · intro q hne hopts hnd hlen
    refine ⟨_, oack_to_binary_eq q hne hlen, ?_⟩
    exact oack_from_binary_roundtrip q hne hopts hnd hlen

/-- C1 witness: the amended round trip evaluated at one concrete packet of
each variant, including an Error packet whose optional message is the
empty string. -/
theorem C1_witness :
    (∃ b, RequestPacket.to_binary ⟨.read, [97], .octet, [([98], [99])]⟩
        = .ok b ∧
      RequestPacket.from_binary b = .ok ⟨.read, [97], .octet, [([98], [99])]⟩) ∧
    (∃ b, DataPacket.to_binary ⟨1, [1, 2, 3], .octet⟩ = some b ∧
      DataPacket.from_binary b = .ok ⟨1, [1, 2, 3], .octet⟩) ∧
    AcknowledgementPacket.from_binary
      (AcknowledgementPacket.to_binary ⟨7⟩) = .ok ⟨7⟩ ∧
    ErrorPacket.from_binary (ErrorPacket.to_binary ⟨0, some []⟩)
      = .ok ⟨0, some []⟩ ∧
    (∃ b, OptionAckPacket.to_binary ⟨[([98], [99])]⟩ = .ok b ∧
      OptionAckPacket.from_binary b = .ok ⟨[([98], [99])]⟩) :=
  ⟨C1_roundtrip_amended.1 ⟨.read, [97], .octet, [([98], [99])]⟩
      (by decide) (by decide) (by decide) (by decide) (by decide),
   C1_roundtrip_amended.2.1 ⟨1, [1, 2, 3], .octet⟩ rfl (by decide) rfl,
   C1_roundtrip_amended.2.2.1 ⟨7⟩ (by decide),
   C1_roundtrip_amended.2.2.2.1 ⟨0, some []⟩ (by decide)
     (fun m hm => by injection hm with h; subst h; exact ⟨by decide, by decide⟩),
   C1_roundtrip_amended.2.2.2.2 ⟨[([98], [99])]⟩ (by decide) (by decide)
     (by decide) (by decide)⟩

/-- C2 counterexample: a byte sequence already containing CR LF is passed
through by vec_to_na unchanged, so the round trip loses the CR, and
vec_to_na identifies [LF] with [CR, LF], refuting injectivity. -/
theorem C2_counterexample :
    NetASCII.na_to_vec (NetASCII.vec_to_na [13, 10]) ≠ [13, 10] ∧
    NetASCII.vec_to_na [10] = NetASCII.vec_to_na [13, 10] ∧
    ([10] : List Byte) ≠ [13, 10] := by
  decide

/-- C2 (amended): on byte sequences with no CR immediately followed by LF
(a trailing lone CR is allowed), na_to_vec inverts vec_to_na and vec_to_na
is injective. -/
theorem C2_netascii_amended :
    (∀ v : List Byte, NetASCII.noCRLF v = true →
      NetASCII.na_to_vec (NetASCII.vec_to_na v) = v) ∧
    (∀ u v : List Byte, NetASCII.noCRLF u = true →
      NetASCII.noCRLF v = true →
      NetASCII.vec_to_na u = NetASCII.vec_to_na v → u = v) :=
  ⟨NetASCII.na_to_vec_vec_to_na,
   fun _ _ hu hv h => NetASCII.vec_to_na_inj hu hv h⟩

/-- C2 witness: the amended round trip at a sequence with a trailing lone
CR, and injectivity at two concrete distinct sequences. -/
theorem C2_witness :
    NetASCII.noCRLF [97, 13] = true ∧
    NetASCII.na_to_vec (NetASCII.vec_to_na [97, 13]) = [97, 13] ∧
    (NetASCII.vec_to_na [97] = NetASCII.vec_to_na [98] → [97] = [98]) :=
  ⟨by decide, C2_netascii_amended.1 [97, 13] (by decide),
   C2_netascii_amended.2 [97] [98] (by decide) (by decide)⟩

/-- C5 counterexample: a proposed blksize of 1024 (well inside 8..65464)
does not appear in the accepted list returned by proc_opts. -/
theorem C5_counterexample :
    ([98, 108, 107, 115, 105, 122, 101], [49, 48, 50, 52]) ∉
      Conn.proc_opts [([98, 108, 107, 115, 105, 122, 101],
        [49, 48, 50, 52])] := by
  decide

/-- C5 (amended): the option processor accepts nothing: the branch that
would accept blksize is commented out in the source, so the returned
accepted list is empty for every proposed option list and no option is
ever applied or echoed. -/
theorem C5_proc_opts_amended :
    ∀ opts : List (List Byte × List Byte), Conn.proc_opts opts = [] := by
  intro opts
  have h : ∀ (l : List (List Byte × List Byte))
      (acc : List (List Byte × List Byte)),
      List.foldl (fun a (_ : List Byte × List Byte) => a) acc l = acc := by
    intro l
    induction l with
    | nil => intro acc; rfl
    | cons x xs ih => intro acc; exact ih acc
  exact h opts []

/-- C8: the claim (and the error-code table of the spec, matching the
TFTPErrorCode enumeration of the source, which defines OptionNegotiation
= 8) requires code 8 to decode; ErrorPacket::from_binary instead rejects
every code above 7, so the packet the encoder itself produces for code 8
is rejected with "Incorrect error code", while code 7 still decodes. -/
theorem C8_errcode8_rejected :
    ErrorPacket.to_binary ⟨8, none⟩ = [0, 5, 0, 8, 0] ∧
    ErrorPacket.from_binary [0, 5, 0, 8, 0]
      = .error "Incorrect error code" ∧
    ErrorPacket.from_binary [0, 5, 0, 7, 0] = .ok ⟨7, none⟩ :=
  ⟨rfl, rfl, rfl⟩

/-- C10 counterexample: block 2 with a 1-byte payload also reaches the
out-of-range branch of read_data (start index 512 exceeds the payload),
so the branch is not reachable only at block 0. -/
theorem C10_counterexample :
    DataPacket.read_data ⟨2, [9], .octet⟩ = none ∧ (2 : Nat) ≠ 0 :=
  ⟨rfl, by decide⟩

/-- C10 (amended): for an in-range block number, the out-of-range branch of
read_data is reached exactly when the payload vector is non-empty and the
size_t slice start (block_n - 1) * 512 lies beyond the payload: at block 0
(where the subtraction underflows) and at any block whose start exceeds
the payload length. -/
theorem C10_read_data_amended (p : DataPacket) (hb : p.blockN < 65536) :
    p.read_data = none ↔
      p.data ≠ [] ∧ (p.blockN = 0 ∨ 512 * (p.blockN - 1) > p.data.length) := by
  by_cases hemp : p.data = []
  · simp [DataPacket.read_data, hemp]
  · have hmod : p.blockN % 65536 = p.blockN := Nat.mod_eq_of_lt hb
    simp only [DataPacket.read_data, if_neg hemp, hmod]
    by_cases hz : p.blockN = 0
    · rw [hz]
      have hstart : (0 + (SIZE_T_MOD - 1)) * 512 % SIZE_T_MOD
          = SIZE_T_MOD - 512 := by norm_num [SIZE_T_MOD]
      rw [hstart]
      have : ¬ ((0 : Nat) * 512 > p.data.length) := by omega
      rw [if_neg this]
      rw [if_neg (by norm_num [SIZE_T_MOD])]
      simp [hemp]
    · have hb1 : 1 ≤ p.blockN := Nat.one_le_iff_ne_zero.mpr hz
      have hstart : (p.blockN + (SIZE_T_MOD - 1)) * 512 % SIZE_T_MOD
          = (p.blockN - 1) * 512 := by
        have h1 : (p.blockN + (SIZE_T_MOD - 1)) * 512
            = (p.blockN - 1) * 512 + 512 * SIZE_T_MOD := by
          have hS : 1 ≤ SIZE_T_MOD := by norm_num [SIZE_T_MOD]
          have : p.blockN + (SIZE_T_MOD - 1)
              = (p.blockN - 1) + SIZE_T_MOD := by omega
          rw [this]
          ring
        rw [h1, Nat.add_mul_mod_self_right]
        refine Nat.mod_eq_of_lt ?_
        have hbb : p.blockN - 1 ≤ 65535 := by omega
        have h2 : (p.blockN - 1) * 512 ≤ 65535 * 512 :=
          Nat.mul_le_mul_right _ hbb
        have h3 : (65535 : Nat) * 512 < SIZE_T_MOD := by
          norm_num [SIZE_T_MOD]
        omega
      rw [hstart]
      by_cases hgt : p.blockN * 512 > p.data.length
      · rw [if_pos hgt]
        by_cases hle : (p.blockN - 1) * 512 ≤ p.data.length
        · rw [if_pos hle]
          simp [hemp]
          omega
        · rw [if_neg hle]
          simp [hemp]
          omega
      · rw [if_neg hgt]
        rw [if_pos (by omega)]
        simp [hemp]
        omega

/-- C10 witness: the amended equivalence evaluated at block 0 with a
non-empty payload, the case the claim singles out. -/
theorem C10_witness :
    (0 : Nat) < 65536 ∧
    (DataPacket.read_data ⟨0, [9], .octet⟩ = none ↔
      ([9] : List Byte) ≠ [] ∧ ((0 : Nat) = 0 ∨ 512 * (0 - 1) > ([9] : List Byte).length)) :=
  ⟨by decide, C10_read_data_amended ⟨0, [9], .octet⟩ (by decide)⟩

/-! ### Projection lemmas for set_state -/

theorem Conn.set_state_state (c : Conn) (s : ConnState) :
    (c.set_state s).state = s := by
  simp only [Conn.set_state]
  split <;> rfl

theorem Conn.set_state_file (c : Conn) (s : ConnState) :
    (c.set_state s).file = c.file := by
  simp only [Conn.set_state]
  split <;> rfl

theorem Conn.set_state_crEnd (c : Conn) (s : ConnState) :
    (c.set_state s).crEnd = c.crEnd := by
  simp only [Conn.set_state]
  split <;> rfl

/-- C9 (confirmed): the exec loop guard only dispatches handlers while the
state is non-terminal; a connection whose state is Completed or Errored is
left exactly as it is by every further exec iteration, whatever the
derived-class request handlers, payload source, clock readings, datagrams
or shutdown flags are.  Hence a trajectory's state can enter the terminal
set at most once and is thereafter stable. -/
theorem C9_terminal_stability :
    ∀ (ru rd : Conn → Nat → Except String (Conn × List Dgram))
      (nd : Conn → List Byte) (c : Conn), c.state.terminal →
      (∀ now dgram shutd,
        Conn.exec_step ru rd nd c now dgram shutd = .ok (c, [])) ∧
      ∀ inputs, Conn.exec_run ru rd nd c inputs = .ok c := by
  intro ru rd nd c hterm
  have hrun : c.is_running = false := by
    unfold Conn.is_running
    cases hc : c.state <;> simp_all [ConnState.terminal]
  have hstep : ∀ now dgram shutd,
      Conn.exec_step ru rd nd c now dgram shutd = .ok (c, []) := by
    intro now dgram shutd
    simp [Conn.exec_step, hrun]
  refine ⟨hstep, ?_⟩
  intro inputs
  induction inputs with
  | nil => rfl
  | cons i rest ih =>
      simp only [Conn.exec_run, hstep i.1 i.2.1 i.2.2]
      exact ih

/-- C9 witness: a connection in the Errored state is untouched by a run of
two exec iterations with arbitrary inputs, including a raised shutdown
flag. -/
theorem C9_witness :
    ConnState.terminal (ConnState.errored) ∧
    Conn.exec_run (fun c _ => .ok (c, [])) (fun c _ => .ok (c, []))
      (fun _ => [])
      ⟨.errored, .awaiting, 1, 0, false, false, false, false, false, false,
        false, false, .read, .octet, ⟨1, 69⟩, [], 0, 0, [], []⟩
      [(0, none, false), (5, none, true)]
      = .ok ⟨.errored, .awaiting, 1, 0, false, false, false, false, false,
        false, false, false, .read, .octet, ⟨1, 69⟩, [], 0, 0, [], []⟩ :=
  ⟨trivial,
   (C9_terminal_stability (fun c _ => .ok (c, [])) (fun c _ => .ok (c, []))
     (fun _ => [])
     ⟨.errored, .awaiting, 1, 0, false, false, false, false, false, false,
       false, false, .read, .octet, ⟨1, 69⟩, [], 0, 0, [], []⟩
     trivial).2 [(0, none, false), (5, none, true)]⟩

/-- C7 counterexample: the client engine does not send Error 5 at all: a
well-formed datagram from a foreign origin (TID 40002 instead of the
established 40001) is dropped silently — no datagram is emitted — while
the claim requires an Error 5 reply to the origin for every transfer. -/
theorem C7_counterexample :
    Except.map (fun r => (r.2.1, r.1.state, r.1.blockN, r.1.hostAddr))
      (Client.recv_packet
        ⟨.awaiting, 1, 0, false, false, false, .read, .octet, ⟨1, 40001⟩,
          [], 0, 10, []⟩
        false (some (⟨1, 40002⟩, [0, 3, 0, 2])))
      = .ok ([], .awaiting, 1, ⟨1, 40001⟩) := rfl

/-- C7 (amended): on a decodable datagram from a foreign origin with no
peer latching pending, the base engine replies with Error 5 to the origin
(never the peer), surfaces no packet, clears the receive buffer and —
contrary to the claim — refreshes last_sent_at to the current time, while
state, pstate, block_n, send_tries and the peer address are unchanged; the
client engine sends nothing at all and only clears its buffer. -/
theorem C7_tid_check_amended :
    (∀ (c : Conn) (now : Nat) (ao : Bool) (origin : Addr)
      (bytes : List Byte) (pkt : Packet),
      PacketFactory.create bytes = .ok (some pkt) →
      (!c.addrStatic && ao) = false →
      origin ≠ c.remAddr →
      c.recv_packet now ao (some (origin, bytes)) =
        .ok ({ c with rxBuffer := [], rxLen := 0, lastSentAt := now },
          [(origin, (ErrorPacket.mk 5
            (some (bytesOfString "Unexpected packet origin"))).to_binary)],
          none)) ∧
    (∀ (c : Client) (origin : Addr) (bytes : List Byte) (pkt : Packet),
      PacketFactory.create bytes = .ok (some pkt) →
      origin ≠ c.hostAddr →
      c.recv_packet false (some (origin, bytes)) =
        .ok ({ c with rxBuffer := [], rxLen := 0 }, [], none)) := by
  constructor
  · intro c now ao origin bytes pkt hc hao ho
    simp [Conn.recv_packet, hc, hao, ho]
  · intro c origin bytes pkt hc ho
    simp [Client.recv_packet, hc, ho]

/-- C7 witness: the base-engine part evaluated at a concrete connection
and a concrete foreign-origin Data datagram. -/
theorem C7_witness :
    PacketFactory.create [0, 3, 0, 2] = .ok (some (.data ⟨2, [], .octet⟩)) ∧
    Conn.recv_packet
      ⟨.awaiting, .downloading, 1, 0, false, false, false, false, false,
        false, false, true, .read, .octet, ⟨1, 40001⟩, [], 0, 2, [], []⟩
      9 false (some (⟨1, 40002⟩, [0, 3, 0, 2]))
      = .ok (⟨.awaiting, .downloading, 1, 0, false, false, false, false,
          false, false, false, true, .read, .octet, ⟨1, 40001⟩, [], 0, 9,
          [], []⟩,
        [(⟨1, 40002⟩, (ErrorPacket.mk 5
          (some (bytesOfString "Unexpected packet origin"))).to_binary)],
        none) :=
  ⟨rfl,
   C7_tid_check_amended.1
     ⟨.awaiting, .downloading, 1, 0, false, false, false, false, false,
       false, false, true, .read, .octet, ⟨1, 40001⟩, [], 0, 2, [], []⟩
     9 false ⟨1, 40002⟩ [0, 3, 0, 2] (.data ⟨2, [], .octet⟩)
     rfl (by decide) (by decide)⟩

theorem Client.retryState_sendTries (c : Client) (n : Int) :
    ({ c with sendTries := n } : Client).retryState = c.retryState := rfl

/-- C4 counterexample: a download transfer whose send_tries already counts
3 retransmissions (4 transmissions in total) does not terminate at the
next timeout: the base engine increments send_tries to 4, restarts the
previous state and re-sends the pending ACK — a fifth transmission —
instead of the Error 0 the claim requires after 4 sends. -/
theorem C4_counterexample :
    Except.map (fun r => (r.1.state, r.1.sendTries, r.2))
      ((Conn.handle_await_download
        ⟨.awaiting, .downloading, 1, 3, false, false, false, false, false,
          false, false, false, .read, .octet, ⟨1, 69⟩, [], 0, 0, [], []⟩
        4 none).bind (fun r => Conn.handle_download r.1 4))
      = .ok (.awaiting, 4, [(⟨1, 69⟩, [0, 4, 0, 1])]) := rfl

/-- C4 (amended): on timeout with no received packet, the base engine
(both awaiting handlers) retransmits whenever the incremented send_tries
is at most TFTP_MAX_RETRIES = 4 and sends Error 0 "Retransmission
timeout" only above it — allowing 1 original send plus 4 retransmissions,
5 send attempts in total; the client engine errors as soon as
send_tries + 1 reaches 4, so it performs 1 original send plus 3
retransmissions, 4 send attempts in total, as the claim states. -/
theorem C4_retry_amended :
    (∀ (c : Conn) (now : Nat) (dgram : Option Dgram),
      c.is_timedout now = true →
      (c.sendTries + 1 ≤ (4 : Int) →
        c.handle_await_download now dgram =
          .ok (({ c with sendTries := c.sendTries + 1 }).set_state c.pstate,
            []) ∧
        c.handle_await_upload now dgram =
          .ok (({ c with sendTries := c.sendTries + 1 }).set_state c.pstate,
            [])) ∧
      (c.sendTries + 1 > (4 : Int) →
        c.handle_await_download now dgram =
          .ok (({ c with sendTries := c.sendTries + 1, lastSentAt := now }).set_state .errored,
            [(c.remAddr, (ErrorPacket.mk 0
              (some (bytesOfString "Retransmission timeout"))).to_binary)]) ∧
        c.handle_await_upload now dgram =
          .ok (({ c with sendTries := c.sendTries + 1, lastSentAt := now }).set_state .errored,
            [(c.remAddr, (ErrorPacket.mk 0
              (some (bytesOfString "Retransmission timeout"))).to_binary)]))) ∧
    (∀ (c : Client) (now : Nat) (dgram : Option Dgram),
      c.is_timedout now = true →
      (c.sendTries + 1 < (4 : Int) →
        c.handle_await_download now dgram =
          .ok ({ c with sendTries := c.sendTries + 1, state := c.retryState }, []) ∧
        c.handle_await_upload now dgram =
          .ok ({ c with sendTries := c.sendTries + 1, state := c.retryState }, [])) ∧
      (c.sendTries + 1 ≥ (4 : Int) →
        c.handle_await_download now dgram =
          .ok ({ c with state := .errored },
            [(c.hostAddr, (ErrorPacket.mk 0
              (some (bytesOfString "Retransmission timeout"))).to_binary)]) ∧
        c.handle_await_upload now dgram =
          .ok ({ c with state := .errored },
            [(c.hostAddr, (ErrorPacket.mk 0
              (some (bytesOfString "Retransmission timeout"))).to_binary)]))) := by
  constructor
  · intro c now dgram ht
    constructor
    · intro hle
      have hgt : ¬ ({ c with sendTries := c.sendTries + 1 } : Conn).sendTries
          > (4 : Int) := by
        simp only [Int.not_lt]
        exact hle
      constructor
      · simp [Conn.handle_await_download, ht, hgt]
      · simp [Conn.handle_await_upload, ht, hgt]
    · intro hgt
      constructor
      · simp [Conn.handle_await_download, ht, hgt, Conn.send_error]
      · simp [Conn.handle_await_upload, ht, hgt, Conn.send_error]
  · intro c now dgram ht
    constructor
    · intro hlt
      have hno : ¬ c.sendTries + 1 ≥ (4 : Int) := by omega
      constructor
      · simp [Client.handle_await_download, ht, hno,
          Client.retryState_sendTries]
      · simp [Client.handle_await_upload, ht, hno,
          Client.retryState_sendTries]
    · intro hge
      constructor
      · simp [Client.handle_await_download, ht, hge, Client.send_error]
      · simp [Client.handle_await_upload, ht, hge, Client.send_error]

/-- C4 witness: the base-engine error branch at send_tries = 4 and the
client error branch at send_tries = 3, on concrete idle-timeout inputs. -/
theorem C4_witness :
    Conn.is_timedout
      ⟨.awaiting, .downloading, 1, 4, false, false, false, false, false,
        false, false, false, .read, .octet, ⟨1, 69⟩, [], 0, 0, [], []⟩ 5
      = true ∧
    (4 : Int) + 1 > (4 : Int) ∧
    Conn.handle_await_download
      ⟨.awaiting, .downloading, 1, 4, false, false, false, false, false,
        false, false, false, .read, .octet, ⟨1, 69⟩, [], 0, 0, [], []⟩
      5 none =
      .ok ((⟨.awaiting, .downloading, 1, 4 + 1, false, false, false, false,
          false, false, false, false, .read, .octet, ⟨1, 69⟩, [], 0, 5, [],
          []⟩ : Conn).set_state .errored,
        [(⟨1, 69⟩, (ErrorPacket.mk 0
          (some (bytesOfString "Retransmission timeout"))).to_binary)]) :=
  ⟨by decide, by decide,
   ((C4_retry_amended.1
      ⟨.awaiting, .downloading, 1, 4, false, false, false, false, false,
        false, false, false, .read, .octet, ⟨1, 69⟩, [], 0, 0, [], []⟩
      5 none (by decide)).2 (by decide)).1⟩

/-- recv_packet from the established peer surfaces the decoded packet and
only fills the receive buffer. -/
theorem Conn.recv_packet_from_peer (c : Conn) (now : Nat) (ao : Bool)
    (origin : Addr) (bytes : List Byte) (pkt : Packet)
    (hc : PacketFactory.create bytes = .ok (some pkt))
    (hao : (!c.addrStatic && ao) = false)
    (ho : origin = c.remAddr) :
    c.recv_packet now ao (some (origin, bytes)) =
      .ok ({ c with rxBuffer := bytes, rxLen := (bytes.length : Int) },
        [], some pkt) := by
  simp [Conn.recv_packet, hc, hao, ho]

/-- Client recv_packet from the established host surfaces the decoded
packet and only fills the receive buffer. -/
theorem Client.recv_packet_from_host (c : Client) (origin : Addr)
    (bytes : List Byte) (pkt : Packet)
    (hc : PacketFactory.create bytes = .ok (some pkt))
    (ho : origin = c.hostAddr) :
    c.recv_packet false (some (origin, bytes)) =
      .ok ({ c with rxBuffer := bytes, rxLen := (bytes.length : Int) },
        [], some pkt) := by
  simp [Client.recv_packet, hc, ho]

/-- C3 counterexample: the client engine applies no block-number check at
all: awaiting block 6 (block_n = 5), a well-formed Data packet carrying
block 3 — a stray the claim requires to be discarded with no state change
— is accepted: block_n becomes 6 and the state moves to Downloading. -/
theorem C3_counterexample :
    Except.map (fun r => (r.1.blockN, r.1.state, r.2))
      (Client.handle_await_download
        ⟨.awaiting, 5, 0, false, false, false, .read, .octet, ⟨1, 69⟩,
          [], 0, 10, []⟩
        10 (some (⟨1, 69⟩, [0, 3, 0, 3])))
      = .ok (6, .downloading, []) ∧ ¬((3 : Int) = 5 + 1) :=
  ⟨rfl, by decide⟩

/-- C3 (amended): the server-side base engine behaves as the claim states:
in the download-awaiting state a well-formed Data packet from the peer is
accepted (block_n incremented, transition to Downloading) exactly when its
block number equals block_n + 1, a lower block is discarded with no state
change, and a higher block draws Error 4 and Errored.  The client engine,
however, accepts every well-formed Data packet regardless of its block
number, unconditionally incrementing block_n. -/
theorem C3_block_acceptance_amended :
    (∀ (c : Conn) (now : Nat) (origin : Addr) (bytes : List Byte)
      (p : DataPacket),
      c.is_timedout now = false →
      PacketFactory.create bytes = .ok (some (.data p)) →
      (!c.addrStatic && (c.blockN == 0)) = false →
      origin = c.remAddr →
      ((p.blockN : Int) % 65536 < c.blockN + 1 →
        c.handle_await_download now (some (origin, bytes)) =
          .ok ({ c with rxBuffer := bytes, rxLen := (bytes.length : Int) },
            [])) ∧
      ((p.blockN : Int) % 65536 = c.blockN + 1 →
        c.blockN ≠ (65534 : Int) →
        c.handle_await_download now (some (origin, bytes)) =
          .ok (({ c with rxBuffer := bytes, rxLen := (bytes.length : Int), blockN := c.blockN + 1, sendTries := 0 }).set_state .downloading, [])) ∧
      ((p.blockN : Int) % 65536 > c.blockN + 1 →
        c.handle_await_download now (some (origin, bytes)) =
          .ok (({ c with rxBuffer := bytes, rxLen := (bytes.length : Int), lastSentAt := now }).set_state .errored,
            [(c.remAddr, (ErrorPacket.mk 4
              (some (bytesOfString "Received ACK for future block"))).to_binary)]))) ∧
    (∀ (c : Client) (now : Nat) (origin : Addr) (bytes : List Byte)
      (p : DataPacket),
      c.is_timedout now = false →
      PacketFactory.create bytes = .ok (some (.data p)) →
      (c.blockN == 0) = false →
      origin = c.hostAddr →
      c.blockN ≠ (65535 : Int) →
      c.handle_await_download now (some (origin, bytes)) =
        .ok ({ c with rxBuffer := bytes, rxLen := (bytes.length : Int), blockN := c.blockN + 1, sendTries := 0, state := .downloading },
          [])) := by
  constructor
  · intro c now origin bytes p ht hc hao ho
    have hao' : (!c.addrStatic && (c.blockN == 0)) = false := hao
    have hrecv := Conn.recv_packet_from_peer c now (c.blockN == 0) origin
      bytes (.data p) hc hao' ho
    refine ⟨?_, ?_, ?_⟩
    · intro hlt
      simp [Conn.handle_await_download, ht, hrecv, hlt]
    · intro heq hne
      have hnlt : ¬ ((p.blockN : Int) % 65536 < c.blockN + 1) := by omega
      have hngt : ¬ (c.blockN + 1 < (p.blockN : Int) % 65536) := by omega
      simp [Conn.handle_await_download, ht, hrecv, hnlt, hngt, hne,
        Conn.send_error]
    · intro hgt
      have hnlt : ¬ ((p.blockN : Int) % 65536 < c.blockN + 1) := by omega
      simp [Conn.handle_await_download, ht, hrecv, hnlt, hgt,
        Conn.send_error]
  · intro c now origin bytes p ht hc hb0 ho hne
    have hrecv : c.recv_packet (c.blockN == 0) (some (origin, bytes)) =
        .ok ({ c with rxBuffer := bytes, rxLen := (bytes.length : Int) },
          [], some (.data p)) := by
      rw [hb0]
      exact Client.recv_packet_from_host c origin bytes (.data p) hc ho
    simp [Client.handle_await_download, ht, hrecv, hne]

/-- C3 witness: the base-engine accept branch at a concrete connection
awaiting block 2 receiving Data block 2. -/
theorem C3_witness :
    Conn.handle_await_download
      (⟨.awaiting, .downloading, 1, 0, false, false, false, false, false,
        false, false, false, .read, .octet, ⟨1, 69⟩, [], 0, 10, [], []⟩ : Conn)
      10 (some (⟨1, 69⟩, [0, 3, 0, 2, 7]))
      = .ok (({ (⟨.awaiting, .downloading, 1, 0, false, false, false, false, false,
          false, false, false, .read, .octet, ⟨1, 69⟩, [], 0, 10, [], []⟩ : Conn) with rxBuffer := [0, 3, 0, 2, 7], rxLen := ((5 : Nat) : Int), blockN := 1 + 1, sendTries := 0 }).set_state .downloading,
        []) :=
  (C3_block_acceptance_amended.1
    (⟨.awaiting, .downloading, 1, 0, false, false, false, false, false,
      false, false, false, .read, .octet, ⟨1, 69⟩, [], 0, 10, [], []⟩ : Conn)
    10 ⟨1, 69⟩ [0, 3, 0, 2, 7] ⟨2, [7], .octet⟩
    (by decide) rfl (by decide) (by decide)).2.1 (by decide) (by decide)

/-- C6 counterexample: a NetASCII block whose original payload is CR NUL
(last byte NUL, not CR) still sets cr_end to true, because the code
computes cr_end from the converted data (CR NUL converts to a bare CR)
rather than from the original untransformed payload as the claim states. -/
theorem C6_counterexample :
    Except.map (fun r => r.1.crEnd)
      (Conn.handle_download
        ⟨.downloading, .awaiting, 1, 0, false, false, false, false, false,
          false, false, false, .read, .netascii, ⟨1, 69⟩,
          [0, 3, 0, 1, 13, 0], 6, 0, [], []⟩ 5)
      = .ok true ∧
    ([13, 0] : List Byte).getLast? = some 0 ∧ (0 : Byte) ≠ 13 :=
  ⟨rfl, rfl, by decide⟩

/-- C6 (amended): in the NetASCII branch of handle-download (base engine
and client alike), when cr_end is true and the block's first byte is LF
the local file is truncated by one byte before the converted data is
appended, and when the first byte is NUL that byte is dropped before
conversion; but cr_end is then set to true if and only if the converted
(post-splice, na_to_vec-transformed) data is non-empty and ends in CR —
not by the last byte of the original untransformed payload. -/
theorem C6_cr_splice_amended :
    (∀ (c : Conn) (now : Nat) (pk : DataPacket),
      (c.blockN == 0) = false →
      0 < c.rxLen →
      DataPacket.from_binary (c.rxBuffer.take c.rxLen.toNat) = .ok pk →
      c.format = .netascii →
      pk.data ≠ [] →
      ∃ c' outs, c.handle_download now = .ok (c', outs) ∧
        (c.crEnd = true → pk.data.head? = some 10 →
          c'.file = c.file.dropLast ++ NetASCII.na_to_vec pk.data) ∧
        (c.crEnd = true → pk.data.head? = some 0 →
          c'.file = c.file ++ NetASCII.na_to_vec pk.data.tail) ∧
        (c'.crEnd = true ↔
          ((if c.crEnd = true ∧ pk.data.head? = some 0
            then NetASCII.na_to_vec pk.data.tail
            else NetASCII.na_to_vec pk.data) ≠ [] ∧
           (if c.crEnd = true ∧ pk.data.head? = some 0
            then NetASCII.na_to_vec pk.data.tail
            else NetASCII.na_to_vec pk.data).getLast? = some 13))) ∧
    (∀ (c : Client) (now : Nat) (pk : DataPacket),
      (c.blockN == 0) = false →
      0 < c.rxLen →
      DataPacket.from_binary (c.rxBuffer.take c.rxLen.toNat) = .ok pk →
      c.format = .netascii →
      pk.data ≠ [] →
      ∃ c' outs, c.handle_download now = .ok (c', outs) ∧
        (c.lastDataCr = true → pk.data.head? = some 10 →
          c'.file = c.file.dropLast ++ NetASCII.na_to_vec pk.data) ∧
        (c.lastDataCr = true → pk.data.head? = some 0 →
          c'.file = c.file ++ NetASCII.na_to_vec pk.data.tail) ∧
        (c'.lastDataCr = true ↔
          ((if c.lastDataCr = true ∧ pk.data.head? = some 0
            then NetASCII.na_to_vec pk.data.tail
            else NetASCII.na_to_vec pk.data) ≠ [] ∧
           (if c.lastDataCr = true ∧ pk.data.head? = some 0
            then NetASCII.na_to_vec pk.data.tail
            else NetASCII.na_to_vec pk.data).getLast? = some 13))) := by
  constructor
  · intro c now pk hb0 hrx hparse hfmt hne
    have hc1 : (c.blockN == 0 && c.oackInit) = false := by simp [hb0]
    have hc2 : (c.blockN == 0 || decide (c.rxLen ≤ 0)) = false := by
      simp [hb0]
      omega
    simp only [Conn.handle_download, hc1, hc2, hparse, Bool.false_eq_true,
      if_false, hfmt]
    have hfm : (Format.netascii == Format.netascii && decide (pk.data ≠ []))
        = true := by simp [hne]
    simp only [hfm, if_true]
    by_cases hlast : pk.data.length < 512
    · rw [if_pos hlast]
      refine ⟨_, _, rfl, ?_, ?_, ?_⟩
      · intro hcr hhead
        simp [Conn.set_state_file, hcr, hhead]
      · intro hcr hhead
        simp [Conn.set_state_file, hcr, hhead]
      · rw [Conn.set_state_crEnd]
        by_cases hcr : c.crEnd
        · by_cases h10 : pk.data.head? = some 10
          · have h0 : ¬ pk.data.head? = some 0 := by simp [h10]
            simp [hcr, h10, h0]
          · by_cases h0 : pk.data.head? = some 0
            · simp [hcr, h10, h0]
            · simp [hcr, h10, h0]
        · simp [hcr]
    · rw [if_neg hlast]
      refine ⟨_, _, rfl, ?_, ?_, ?_⟩
      · intro hcr hhead
        simp [Conn.set_state_file, hcr, hhead]
      · intro hcr hhead
        simp [Conn.set_state_file, hcr, hhead]
      · rw [Conn.set_state_crEnd]
        by_cases hcr : c.crEnd
        · by_cases h10 : pk.data.head? = some 10
          · have h0 : ¬ pk.data.head? = some 0 := by simp [h10]
            simp [hcr, h10, h0]
          · by_cases h0 : pk.data.head? = some 0
            · simp [hcr, h10, h0]
            · simp [hcr, h10, h0]
        · simp [hcr]
  · intro c now pk hb0 hrx hparse hfmt hne
    have hc2 : (c.blockN == 0 || decide (c.rxLen ≤ 0)) = false := by
      simp [hb0]
      omega
    simp only [Client.handle_download, hc2, hparse, Bool.false_eq_true,
      if_false, hfmt]
    have hfm : (Format.netascii == Format.netascii && decide (pk.data ≠ []))
        = true := by simp [hne]
    simp only [hfm, if_true]
    by_cases hlast : pk.data.length < 512
    · rw [if_pos hlast]
      refine ⟨_, _, rfl, ?_, ?_, ?_⟩
      · intro hcr hhead
        simp [hcr, hhead]
      · intro hcr hhead
        simp [hcr, hhead]
      · by_cases hcr : c.lastDataCr
        · by_cases h10 : pk.data.head? = some 10
          · have h0 : ¬ pk.data.head? = some 0 := by simp [h10]
            simp [hcr, h10, h0]
          · by_cases h0 : pk.data.head? = some 0
            · simp [hcr, h10, h0]
            · simp [hcr, h10, h0]
        · simp [hcr]
    · rw [if_neg hlast]
      refine ⟨_, _, rfl, ?_, ?_, ?_⟩
      · intro hcr hhead
        simp [hcr, hhead]
      · intro hcr hhead
        simp [hcr, hhead]
      · by_cases hcr : c.lastDataCr
        · by_cases h10 : pk.data.head? = some 10
          · have h0 : ¬ pk.data.head? = some 0 := by simp [h10]
            simp [hcr, h10, h0]
          · by_cases h0 : pk.data.head? = some 0
            · simp [hcr, h10, h0]
            · simp [hcr, h10, h0]
        · simp [hcr]

/-- C6 witness: the truncate rule at a concrete connection: cr_end is set,
the block starts with LF, so the trailing CR previously written to the
file is removed before the converted data is appended, and the new cr_end
is false. -/
theorem C6_witness :
    Except.map (fun r => (r.1.file, r.1.crEnd))
      (Conn.handle_download
        ⟨.downloading, .awaiting, 1, 0, false, true, false, false, false,
          false, false, false, .read, .netascii, ⟨1, 69⟩,
          [0, 3, 0, 1, 10, 97], 6, 0, [99, 13], []⟩ 5)
      = .ok ([99, 10, 97], false) := by
  obtain ⟨c', outs, heq, h1, h2, h3⟩ := C6_cr_splice_amended.1
    ⟨.downloading, .awaiting, 1, 0, false, true, false, false, false,
      false, false, false, .read, .netascii, ⟨1, 69⟩,
      [0, 3, 0, 1, 10, 97], 6, 0, [99, 13], []⟩ 5 ⟨1, [10, 97], .octet⟩
    (by decide) (by decide) rfl rfl (by decide)
  have hfile := h1 rfl rfl
  have hcr : c'.crEnd = false := by
    rcases hx : c'.crEnd with _ | _
    · rfl
    · exfalso
      have := h3.mp hx
      revert this
      decide
  rw [heq]
  simp only [Except.map]
  rw [hfile, hcr]
  rfl

end TFTP
